import Mathlib

/-!
# Verification of the danser-go osu! ruleset engine (`app/rulesets/osu/grade.go`)

This development shallowly embeds the gameplay ruleset coordinator of the
repository: the per-player scoring state (`subSet`/`Score`), the judgement
recording path (`SendResult`), the fail state machine (`failInternal`,
`PlayerStopped`), the click-routing decision (`CanBeHit`), and the per-tick
driver (`Update`).

Machine integers (`int64`, `uint`) are modelled as `Int`/`Nat` (no overflow is
reachable in the quantities involved), and `float64` quantities (HP, accuracy,
grade ratios) are modelled as exact rationals `ℚ`.

Parts of the engine that the repository's sources reference but that are not
present in the source tree (the `HealthProcessor` internals, the `HitResult`
bit-mask constants, the score-processor implementations, the per-object judge
state machines and the cumulative difficulty attributes) are modelled from the
specification; each such definition carries a doc comment saying so.
-/

set_option linter.unreachableTactic false
set_option linter.unusedTactic false
set_option linter.unnecessarySeqFocus false

namespace Danser

/-- `Grade` enumeration from `grade.go` (`NONE`, `D`, `_C`, `B`, `A`, `S`,
`SH`, `SS`, `SSH`). -/
inductive Grade where
  | NONE
  | D
  | _C
  | B
  | A
  | S
  | SH
  | SS
  | SSH
  deriving DecidableEq, Repr

/-- `ComboResult` enumeration from `grade.go` (`Reset`, `Hold`, `Increase`). -/
inductive ComboResult where
  | Reset
  | Hold
  | Increase
  deriving DecidableEq, Repr

/-- `ClickAction` enumeration from `grade.go` (`Ignored`, `Shake`, `Click`). -/
inductive ClickAction where
  | Ignored
  | Shake
  | Click
  deriving DecidableEq, Repr

/-- Modelled from the spec: the `HitResult` constants of the missing
`hitresults.go`. The source manipulates them as a bit mask
(`result&BaseHitsM`, `result&SliderHits`); here each meaningful combination
occurring on the `SendResult` path is a constructor. `Hit300`/`Hit100`/
`Hit50`/`Miss` are the base judgement tiers, the `Slider*` constructors are
the slider part results, `Ignore`/`PositionalMiss` are the no-score results
handled by the early return of `SendResult`. -/
inductive HitResult where
  | Hit300
  | Hit100
  | Hit50
  | Miss
  | SliderMiss
  | SliderStart
  | SliderPoint
  | SliderRepeat
  | SliderEnd
  | SpinnerSpin
  | SpinnerPoints
  | SpinnerBonus
  | Ignore
  | PositionalMiss
  deriving DecidableEq, Repr

namespace HitResult

/-- Modelled from the spec: `result & BaseHitsM > 0` — the result carries a
base judgement tier (`Hit300 | Hit100 | Hit50 | Miss`). -/
def isBaseHitM : HitResult → Bool
  | Hit300 => true
  | Hit100 => true
  | Hit50 => true
  | Miss => true
  | _ => false

/-- Modelled from the spec: `result & BaseHits > 0` — a scoring base hit
(`Hit300 | Hit100 | Hit50`). -/
def isBaseHit : HitResult → Bool
  | Hit300 => true
  | Hit100 => true
  | Hit50 => true
  | _ => false

/-- Modelled from the spec: `result & SliderHits > 0` — a slider part result. -/
def isSliderHit : HitResult → Bool
  | SliderStart => true
  | SliderPoint => true
  | SliderRepeat => true
  | SliderEnd => true
  | _ => false

/-- Modelled from the spec: `HitResult.ScoreValue()` of the missing
`hitresults.go` — the raw point value of a result (300/100/50 for the base
tiers, 30 for slider starts/repeats/ends, 10 for slider points, 0 for
misses). -/
def ScoreValue : HitResult → ℤ
  | Hit300 => 300
  | Hit100 => 100
  | Hit50 => 50
  | SliderStart => 30
  | SliderPoint => 10
  | SliderRepeat => 30
  | SliderEnd => 30
  | SpinnerSpin => 100
  | SpinnerPoints => 100
  | SpinnerBonus => 1100
  | _ => 0

end HitResult

/-- The modifier state of one player relevant to the embedded code paths,
abstracting the `difficulty.Modifier` bit set (external to the repository's
engine sources). -/
structure Mods where
  suddenDeath : Bool
  perfect : Bool
  noFail : Bool
  relax : Bool
  relax2 : Bool
  hidden : Bool
  flashlight : Bool
  easy : Bool
  deriving DecidableEq, Repr

/-- `Mods.Active(difficulty.NoFail|difficulty.Relax|difficulty.Relax2)`:
any fail-preventing modifier is active. -/
def Mods.noFailLike (m : Mods) : Bool :=
  m.noFail || m.relax || m.relax2

/-- `Mods & (difficulty.Hidden|difficulty.Flashlight) > 0`. -/
def Mods.hdfl (m : Mods) : Bool :=
  m.hidden || m.flashlight

/-- Session-constant environment of `failInternal`: the replay flags read
from settings and whether a fail listener is registered on the rule set. -/
structure FailEnv where
  isReplay : Bool
  ignoreFailsInReplays : Bool
  hasFailListener : Bool
  deriving DecidableEq, Repr

/-- `MaxHp` ceiling of the health processor (0..200 internal range per the
spec; the constant itself lives in the missing `health.go`). -/
def MaxHp : ℚ := 200

/-- Modelled from the spec: the clamp applied by `HealthProcessor.Increase`
("HP is clamped to range on every mutation"). -/
def clampHp (x : ℚ) : ℚ := max 0 (min x MaxHp)

/-- The published `Score` snapshot struct of `grade.go` (fields used by the
claims; `PP`/`Mods` are carried unchanged or externally supplied). -/
structure Score where
  score : ℤ
  accuracy : ℚ
  grade : Grade
  combo : ℕ
  perfectCombo : Bool
  count300 : ℕ
  countGeki : ℕ
  count100 : ℕ
  countKatu : ℕ
  count50 : ℕ
  countMiss : ℕ
  countSB : ℕ
  pp : ℚ
  deriving DecidableEq, Repr

/-- The per-player `subSet` struct of `grade.go` together with the state of
its score processor and health processor (both modelled from the spec: the
processor implementations are not in the source tree; the combo field follows
the `ComboResult` contract — `Increase` adds one, `Reset` zeroes, `Hold`
keeps — and the processor score accumulates the result's point value). -/
structure SubSet where
  score : Score
  rawScore : ℤ
  currentKatu : ℕ
  currentBad : ℕ
  numObjects : ℕ
  recoveries : ℕ
  failed : Bool
  sdpfFail : Bool
  forceFail : Bool
  processorCombo : ℕ
  processorScore : ℤ
  hp : ℚ
  hpLastTime : ℤ
  deriving DecidableEq, Repr

/-- The per-player state created by `NewOsuRuleset`: accuracy 100, two
recovery credits with the Easy modifier, full HP. -/
def initialSubSet (m : Mods) : SubSet where
  score :=
    { score := 0, accuracy := 100, grade := Grade.NONE, combo := 0
      perfectCombo := false, count300 := 0, countGeki := 0, count100 := 0
      countKatu := 0, count50 := 0, countMiss := 0, countSB := 0, pp := 0 }
  rawScore := 0
  currentKatu := 0
  currentBad := 0
  numObjects := 0
  recoveries := if m.easy then 2 else 0
  failed := false
  sdpfFail := false
  forceFail := false
  processorCombo := 0
  processorScore := 0
  hp := MaxHp
  hpLastTime := 0

/-- `OsuRuleSet.failInternal` from `grade.go`: the fail transition. Returns
the new per-player state and whether the registered fail listener was
invoked. Order of guards as in the source: replay-ignore setting, the
fail-preventing modifiers (bypassed by `forceFail`), the Easy-modifier
recovery credits (bypassed by `sdpfFail` and `forceFail`, restoring 160 HP),
and finally the actual fail which fires the listener only if the player has
not already failed. -/
def failInternal (env : FailEnv) (m : Mods) (s : SubSet) : SubSet × Bool :=
  if env.isReplay ∧ env.ignoreFailsInReplays then
    (s, false)
  else if s.forceFail = false ∧ m.noFailLike then
    (s, false)
  else if 0 < s.recoveries ∧ s.sdpfFail = false ∧ s.forceFail = false then
    ({ s with hp := clampHp (s.hp + 160), recoveries := s.recoveries - 1 }, false)
  else
    ({ s with failed := true }, env.hasFailListener && !s.failed)

/-- Modelled from the spec: `HealthProcessor.Increase(amount, fromHitObject)`
of the missing `health.go` — clamps HP to range and, when called from a hit
object (`fromHitObject = true`) and HP has reached the floor, raises the fail
event, which `NewOsuRuleset` wires to `failInternal`. Returns the new state
and whether the rule set's fail listener fired. -/
def hpIncrease (env : FailEnv) (m : Mods) (fromHitObject : Bool) (amount : ℚ)
    (s : SubSet) : SubSet × Bool :=
  if fromHitObject ∧ clampHp (s.hp + amount) ≤ 0 then
    failInternal env m { s with hp := clampHp (s.hp + amount) }
  else
    ({ s with hp := clampHp (s.hp + amount) }, false)

/-- The grade threshold ladder of `SendResult` (`grade.go` lines 609-631):
`SS`/`SSH` when every judged base object is a 300, otherwise a ladder over
`ratio = count300 / numObjects`, with the `H` variants of the top two grades
when Hidden or Flashlight is active. Division by zero cannot be hit in the
branches that use `ratio`, mirroring the short-circuit order of the source. -/
def computeGrade (hdfl : Bool) (numObjects count300 count50 countMiss : ℕ) :
    Grade :=
  let ratio : ℚ := (count300 : ℚ) / (numObjects : ℚ)
  if count300 = numObjects then
    if hdfl then Grade.SSH else Grade.SS
  else if ratio > 9/10 ∧ (count50 : ℚ) / (numObjects : ℚ) < 1/100 ∧ countMiss = 0 then
    if hdfl then Grade.SH else Grade.S
  else if (ratio > 8/10 ∧ countMiss = 0) ∨ ratio > 9/10 then
    Grade.A
  else if (ratio > 7/10 ∧ countMiss = 0) ∨ ratio > 8/10 then
    Grade.B
  else if ratio > 6/10 then
    Grade._C
  else
    Grade.D

/-- Per-judgement inputs of `SendResult` that come from outside the
per-player state: the judge's result and combo result, the externally
computed cumulative difficulty attribute `diff.MaxCombo` looked up at
`mutils.Max(1, numObjects) - 1`, the combo-boundary condition of line 666 and
the `allClicked` backward scan of lines 667-685 (both functions of the
beatmap and the processed list), the health-table delta used by
`HealthProcessor.AddResult`, and the external performance calculator's
return value. -/
structure SendInput where
  result : HitResult
  comboResult : ComboResult
  mcAttr : ℕ
  comboEnd : Bool
  allClicked : Bool
  hpDelta : ℚ
  ppValue : ℚ
  deriving DecidableEq, Repr

/-- The SuddenDeath/Perfect override condition of `SendResult` lines 561-562. -/
def sdpfHits (m : Mods) (result : HitResult) (comboResult : ComboResult) : Bool :=
  ((m.suddenDeath || m.perfect) && decide (comboResult = ComboResult.Reset)) ||
  (m.perfect && result.isBaseHitM && !decide (result = HitResult.Hit300))

/-- The judgement downgrade applied inside the SuddenDeath/Perfect branch of
`SendResult` (lines 563-567): base results become `Miss`, slider part results
become `SliderMiss`. -/
def sdpfDowngrade (result : HitResult) : HitResult :=
  if result.isBaseHitM then HitResult.Miss
  else if result.isSliderHit then HitResult.SliderMiss
  else result

/-- The modifier-driven judgement adjustment of `SendResult` (lines 561-571):
returns the result and combo result actually recorded, plus whether
`sdpfFail` is raised. -/
def adjustJudgement (m : Mods) (result : HitResult) (comboResult : ComboResult) :
    HitResult × ComboResult × Bool :=
  if sdpfHits m result comboResult then
    (sdpfDowngrade result, ComboResult.Reset, true)
  else
    (result, comboResult, false)

/-- Modelled from the spec: the score processor's `AddResult` (the
`scoreV1Processor`/`scoreV2Processor` implementations are not in the source
tree). The combo follows the `ComboResult` contract — `Increase` adds one,
`Reset` zeroes, `Hold` keeps — and the processor score grows by the result's
point value (the variants' combo-bonus scaling is irrelevant to the claims
and elided). -/
def comboApply : ComboResult → ℕ → ℕ
  | ComboResult.Increase, c => c + 1
  | ComboResult.Reset, _ => 0
  | ComboResult.Hold, c => c

def processorAddResult (result : HitResult) (comboResult : ComboResult)
    (s : SubSet) : SubSet :=
  { s with
    processorScore := s.processorScore + result.ScoreValue
    processorCombo := comboApply comboResult s.processorCombo }

/-- `SendResult` lines 576-599: publish the processor score, count slider
breaks, and for base results update the raw score, the hit tallies and the
judged-object count. -/
def applyTallies (result : HitResult) (comboResult : ComboResult) (s : SubSet) :
    SubSet :=
  let s := { s with score.score := s.processorScore }
  let s :=
    if comboResult = ComboResult.Reset ∧ result ≠ HitResult.Miss then
      { s with score.countSB := s.score.countSB + 1 }
    else s
  if result.isBaseHitM then
    { s with
      rawScore := s.rawScore + result.ScoreValue
      score.count300 := s.score.count300 + (if result = HitResult.Hit300 then 1 else 0)
      score.count100 := s.score.count100 + (if result = HitResult.Hit100 then 1 else 0)
      score.count50 := s.score.count50 + (if result = HitResult.Hit50 then 1 else 0)
      score.countMiss := s.score.countMiss + (if result = HitResult.Miss then 1 else 0)
      numObjects := s.numObjects + 1 }
  else s

/-- `SendResult` lines 601-657: published max combo, accuracy, grade ladder,
perfect-combo flag from the cumulative attribute, and the stored performance
value. -/
def applyDerived (m : Mods) (inp : SendInput) (s : SubSet) : SubSet :=
  let s := { s with score.combo := max s.processorCombo s.score.combo }
  let acc : ℚ :=
    if s.numObjects = 0 then 100
    else 100 * (s.rawScore : ℚ) / ((s.numObjects : ℚ) * 300)
  let s := { s with score.accuracy := acc }
  let gr :=
    computeGrade m.hdfl s.numObjects s.score.count300 s.score.count50 s.score.countMiss
  let s := { s with score.grade := gr }
  let s := { s with score.perfectCombo := decide (inp.mcAttr = s.score.combo) }
  { s with score.pp := inp.ppValue }

/-- `SendResult` lines 659-701: the katu/bad running counters and the
geki/katu sub-classification at a combo boundary. -/
def applyKatu (result : HitResult) (comboEnd allClicked : Bool) (s : SubSet) :
    SubSet :=
  let bad1 : ℕ := if result = HitResult.Hit50 ∨ result = HitResult.Miss then 1 else 0
  let s := { s with
    currentKatu := s.currentKatu + (if result = HitResult.Hit100 then 1 else 0)
    currentBad := s.currentBad + bad1 }
  if result.isBaseHitM && comboEnd then
    let s :=
      if result.isBaseHit then
        if s.currentKatu = 0 ∧ s.currentBad = 0 ∧ allClicked then
          { s with score.countGeki := s.score.countGeki + 1 }
        else if s.currentBad = 0 ∧ allClicked then
          { s with score.countKatu := s.score.countKatu + 1 }
        else s
      else s
    { s with currentBad := 0, currentKatu := 0 }
  else s

/-- `OsuRuleSet.SendResult` from `grade.go` (lines 549-732), for one player:
early return on `Ignore`/`PositionalMiss`; the SuddenDeath/Perfect judgement
downgrade; score-processor update (`ModifyResult` is modelled as the
identity); slider-break and base-hit tallies; published max combo, accuracy,
grade and perfect-combo flag; geki/katu sub-classification; and finally the
health update (`Increase(-100000, true)` under a pending SuddenDeath/Perfect
fail, else `AddResult`), which can raise the fail transition. Returns the new
state and whether the fail listener fired. -/
def SendResult (env : FailEnv) (m : Mods) (inp : SendInput) (s : SubSet) :
    SubSet × Bool :=
  if inp.result = HitResult.Ignore ∨ inp.result = HitResult.PositionalMiss then
    (s, false)
  else
    let a := adjustJudgement m inp.result inp.comboResult
    let result := a.1
    let comboResult := a.2.1
    let s := if a.2.2 then { s with sdpfFail := true } else s
    let s := processorAddResult result comboResult s
    let s := applyTallies result comboResult s
    let s := applyDerived m inp s
    let s := applyKatu result inp.comboEnd inp.allClicked s
    hpIncrease env m true (if s.sdpfFail then -100000 else inp.hpDelta) s

/-- `OsuRuleSet.PlayerStopped` from `grade.go`: when the player's input ends
more than 1 ms before the last hit object's end time, set `forceFail` and
drive HP down by 10000 as a fail check. Returns the new state and whether the
fail listener fired as a consequence. -/
def PlayerStopped (env : FailEnv) (m : Mods) (time lastEndTime : ℤ)
    (s : SubSet) : SubSet × Bool :=
  if time < lastEndTime - 1 then
    hpIncrease env m true (-10000) { s with forceFail := true }
  else
    (s, false)

/-- Modelled from the spec: `HealthProcessor.Update` of the missing
`health.go` — applies passive drain proportional to the time elapsed since
the previous health update ("subtracts `passive_rate * delta_time` each tick;
never applied while in Failed") and runs the fail check against the floor. -/
def hpUpdate (env : FailEnv) (m : Mods) (drainRate : ℚ) (time : ℤ) (s : SubSet) :
    SubSet × Bool :=
  if s.failed then ({ s with hpLastTime := time }, false)
  else
    hpIncrease env m true (-(drainRate * ((time : ℚ) - (s.hpLastTime : ℚ))))
      { s with hpLastTime := time }

/-- A hit object as seen by `OsuRuleSet.Update`: its sequence number, the
`GetFadeTime()` activation bound (from the source's queue pass), and —
modelled from the spec, since the judge implementations are not in the source
tree — the time from which `UpdatePost` reports the object fully resolved
(the trailing judgement window of §4.1). -/
structure HitObj where
  number : ℕ
  fadeTime : ℤ
  doneTime : ℤ
  deriving DecidableEq, Repr

/-- Modelled from the spec: `HitObject.UpdatePost(time) -> isDone` — an
object is fully resolved once the tick time has passed its trailing
judgement window. -/
def UpdatePost (time : ℤ) (g : HitObj) : Bool :=
  decide (g.doneTime ≤ time)

/-- One player of the rule set: the modifier set, the precomputed passive
drain rate of their health processor, and the mutable per-player state. -/
structure PlayerState where
  mods : Mods
  drainRate : ℚ
  sub : SubSet
  deriving DecidableEq, Repr

/-- The coordinator state owned by `OsuRuleSet` that `Update` mutates: the
not-yet-active `queue`, the active `processed` list, the per-player states
and the `ended` flag. -/
structure RulesetState where
  queue : List HitObj
  processed : List HitObj
  players : List PlayerState
  ended : Bool
  deriving DecidableEq, Repr

/-- `OsuRuleSet.Update` from `grade.go` (lines 386-462): the late-update pass
removes every processed object reporting done and emits its end event; the
activation pass moves the leading run of queued objects whose fade time has
been reached to the back of `processed`; every player's health processor is
ticked; and when both lists are empty the session transitions to `Ended`
(once). Returns the new state and the numbers of the end events emitted. -/
def Update (env : FailEnv) (time : ℤ) (st : RulesetState) :
    RulesetState × List ℕ :=
  let kept := st.processed.filter (fun g => !UpdatePost time g)
  let endedObjs := st.processed.filter (fun g => UpdatePost time g)
  let activated := st.queue.takeWhile (fun g => decide (g.fadeTime ≤ time))
  let queue' := st.queue.dropWhile (fun g => decide (g.fadeTime ≤ time))
  let processed' := kept ++ activated
  let players' := st.players.map (fun p =>
    { p with sub := (hpUpdate env p.mods p.drainRate time p.sub).1 })
  let ended' := st.ended || (queue'.isEmpty && processed'.isEmpty)
  ({ queue := queue', processed := processed', players := players',
     ended := ended' }, endedObjs.map (·.number))

/-- `Tolerance2B` constant from `grade.go` (3 ms). -/
def Tolerance2B : ℤ := 3

/-- `difficulty.HittableRange` (400 ms) — the constant lives in the external
`difficulty` package; its exact value is immaterial to the claims. -/
def HittableRange : ℤ := 400

/-- A processed object as seen by `CanBeHit` for the clicking player: its
sequence number, whether this player has already hit it, its beatmap start
and end times, its stack index under the player's modifiers, and whether it
is a circle. -/
structure ProcObj where
  number : ℕ
  isHit : Bool
  startTime : ℤ
  endTime : ℤ
  stackIndex : ℤ
  isCircle : Bool
  deriving DecidableEq, Repr

/-- The stacked-circles clause of `CanBeHit` (`grade.go` lines 736-748):
for a circle, if the processed entry directly preceding the object is stacked
(`stackIndex > 0`) and still unhit, the click is `Ignored` rather than
shaken. -/
def stackIgnoredCheck (processed : List ProcObj) (o : ProcObj) : Bool :=
  o.isCircle &&
    (let idx := processed.findIdx (fun g => decide (g.number = o.number))
     decide (0 < idx) && decide (idx < processed.length) &&
       (match processed[idx - 1]? with
        | some prev => decide (prev.stackIndex > 0) && !prev.isHit
        | none => false))

/-- The 2B scan of `CanBeHit` (`grade.go` lines 750-760): walk `processed` in
order; at the first unhit object other than the clicked one whose end time is
more than `Tolerance2B` before the clicked object's start time, report a
shake; stop the walk at the clicked object's own unhit entry. -/
def shakeScan (processed : List ProcObj) (o : ProcObj) : Bool :=
  match processed with
  | [] => false
  | g :: rest =>
    if g.isHit then shakeScan rest o
    else if g.number = o.number then false
    else if g.endTime + Tolerance2B < o.startTime then true
    else shakeScan rest o

/-- The autoplay/player branch of `CanBeHit` (`grade.go` lines 762-778): the
last processed circle starting before the clicked object. -/
def lastEarlierCircle (processed : List ProcObj) (o : ProcObj) :
    Option ProcObj :=
  processed.foldl
    (fun acc g =>
      if g.isCircle && decide (g.startTime < o.startTime) then some g else acc)
    none

/-- The closing hittable-range test of `CanBeHit` (`grade.go` lines 781-790):
clicks farther than the hittable range from the object's start time shake. -/
def hitRangeCheck (relax2 : Bool) (o : ProcObj) (time : ℤ) : ClickAction :=
  let hitRange := HittableRange - (if relax2 then 200 else 0)
  if |time - o.startTime| ≥ hitRange then ClickAction.Shake
  else ClickAction.Click

/-- `OsuRuleSet.CanBeHit` from `grade.go` (lines 734-791): for replay input
(neither autoplay nor a live player) the stacked-circles clause, then the 2B
scan over open objects, then the hittable-range test; for autoplay/live input
a shake when the last earlier circle is unhit and the click is before its
start time. -/
def CanBeHit (isAutoOrPlayer relax2 : Bool) (processed : List ProcObj)
    (o : ProcObj) (time : ℤ) : ClickAction :=
  if !isAutoOrPlayer then
    if stackIgnoredCheck processed o then ClickAction.Ignored
    else if shakeScan processed o then ClickAction.Shake
    else hitRangeCheck relax2 o time
  else
    match lastEarlierCircle processed o with
    | some lastObj =>
      if !lastObj.isHit && decide (time < lastObj.startTime) then
        ClickAction.Shake
      else hitRangeCheck relax2 o time
    | none => hitRangeCheck relax2 o time

/-- One per-player occurrence that can touch the fail state during a session:
a judgement delivered through `SendResult`, a health tick from `Update`, or a
`PlayerStopped` notification. -/
inductive Event where
  | send (inp : SendInput)
  | tick (time : ℤ)
  | stop (time lastEnd : ℤ)
  deriving DecidableEq, Repr

/-- Dispatch one `Event` to the embedded operation; returns the new player
state and whether the fail listener fired during the operation. -/
def stepEvent (env : FailEnv) (m : Mods) (drainRate : ℚ) (s : SubSet) :
    Event → SubSet × Bool
  | Event.send inp => SendResult env m inp s
  | Event.tick time => hpUpdate env m drainRate time s
  | Event.stop time lastEnd => PlayerStopped env m time lastEnd s

/-- Run a session's event list for one player, counting how many times the
fail listener fired. -/
def runEvents (env : FailEnv) (m : Mods) (drainRate : ℚ) :
    List Event → SubSet → SubSet × ℕ
  | [], s => (s, 0)
  | e :: es, s =>
    let r := stepEvent env m drainRate s e
    let rest := runEvents env m drainRate es r.1
    (rest.1, (if r.2 then 1 else 0) + rest.2)

/-- One judgement delivered to `SendResult` while an object is being played:
the hit result and its combo result. -/
structure PartEvent where
  result : HitResult
  comboResult : ComboResult
  deriving DecidableEq, Repr

/-- Modelled from the spec: the play of one hit object, abstracting the judge
implementations and the cumulative pp attributes that are not in the source
tree. `c` is the object's contribution to the cumulative `Attributes.MaxCombo`
(its combo value under perfect play), `parts` are the intermediate results
(slider head/tick/repeat/end, spinner results) delivered before the base
judgement, and `final` is the object's base judgement. -/
structure ObjPlay where
  c : ℕ
  parts : List PartEvent
  final : PartEvent
  deriving DecidableEq, Repr

/-- Package a part event as a `SendResult` input given the cumulative
attribute value visible at that call. -/
def partInput (mc : ℕ) (p : PartEvent) : SendInput :=
  { result := p.result, comboResult := p.comboResult, mcAttr := mc,
    comboEnd := false, allClicked := false, hpDelta := 0, ppValue := 0 }

/-- The number of `Increase` combo events an object's play delivers. -/
def incCount (o : ObjPlay) : ℕ :=
  (o.parts.filter (fun p => decide (p.comboResult = ComboResult.Increase))).length +
    (if o.final.comboResult = ComboResult.Increase then 1 else 0)

/-- Modelled from the spec: well-formedness of one object's play, faithful to
what the missing judges and pp attributes guarantee — the object is worth at
least one combo; intermediate results are never base judgements and the final
one always is; the play never delivers more `Increase` events than the
object's combo value; if the intermediate results alone already realise the
full combo value then every element was hit and the base judgement is the top
tier (a sub-top tier means some combo element was missed); a base `Miss`
means nothing was hit (no `Increase` at all, final combo `Reset`); and a top
tier base judgement never carries a combo break. -/
def WFObj (o : ObjPlay) : Prop :=
  1 ≤ o.c ∧
  (∀ p ∈ o.parts, p.result.isBaseHitM = false) ∧
  o.final.result.isBaseHitM = true ∧
  incCount o ≤ o.c ∧
  ((o.parts.filter (fun p => decide (p.comboResult = ComboResult.Increase))).length
      = o.c → o.final.result = HitResult.Hit300) ∧
  (o.final.result = HitResult.Miss →
    (∀ p ∈ o.parts, p.comboResult ≠ ComboResult.Increase) ∧
      o.final.comboResult = ComboResult.Reset) ∧
  (o.final.result = HitResult.Hit300 → o.final.comboResult ≠ ComboResult.Reset)

/-- The `SendResult` inputs generated by one object's play, each tagged with
whether it is the base (final) judgement. `k` and `total` are the number of
base-judged objects and their cumulative combo value so far, so the attribute
looked up at `mutils.Max(1, numObjects) - 1` is `total` for intermediate
results (`o.c` itself while the very first object is in play, since index 0
already covers it) and `total + o.c` for the base judgement. -/
def objEvents (k total : ℕ) (o : ObjPlay) : List (Bool × SendInput) :=
  let mcPart := if k = 0 then o.c else total
  o.parts.map (fun p => (false, partInput mcPart p)) ++
    [(true, partInput (total + o.c) o.final)]

/-- All `SendResult` inputs of a session, threading the judged-object count
and the cumulative attribute. -/
def sessionEvents : ℕ → ℕ → List ObjPlay → List (Bool × SendInput)
  | _, _, [] => []
  | k, total, o :: os => objEvents k total o ++ sessionEvents (k + 1) (total + o.c) os

/-- The trace of published per-player states along a list of `SendResult`
inputs, each tagged as in the input list. -/
def runTrace (env : FailEnv) (m : Mods) :
    List (Bool × SendInput) → SubSet → List (Bool × SubSet)
  | [], _ => []
  | e :: es, s =>
    let s' := (SendResult env m e.2 s).1
    (e.1, s') :: runTrace env m es s'

section ClampLemmas

theorem clampHp_nonneg (x : ℚ) : 0 ≤ clampHp x := le_max_left 0 _

theorem clampHp_le_max (x : ℚ) : clampHp x ≤ MaxHp :=
  max_le (by norm_num [MaxHp]) (min_le_right _ _)

theorem clampHp_of_range {x : ℚ} (h0 : 0 ≤ x) (h1 : x ≤ MaxHp) : clampHp x = x := by
  unfold clampHp
  rw [min_eq_left h1, max_eq_right h0]

theorem clampHp_idem (x : ℚ) : clampHp (clampHp x) = clampHp x :=
  clampHp_of_range (clampHp_nonneg x) (clampHp_le_max x)

end ClampLemmas

section FrameLemmas

/-- `failInternal` only touches `hp`, `recoveries` and `failed`. -/
theorem failInternal_frame (env : FailEnv) (m : Mods) (s : SubSet) :
    ((failInternal env m s).1.score = s.score) ∧
    ((failInternal env m s).1.rawScore = s.rawScore) ∧
    ((failInternal env m s).1.currentKatu = s.currentKatu) ∧
    ((failInternal env m s).1.currentBad = s.currentBad) ∧
    ((failInternal env m s).1.numObjects = s.numObjects) ∧
    ((failInternal env m s).1.sdpfFail = s.sdpfFail) ∧
    ((failInternal env m s).1.forceFail = s.forceFail) ∧
    ((failInternal env m s).1.processorCombo = s.processorCombo) ∧
    ((failInternal env m s).1.processorScore = s.processorScore) ∧
    ((failInternal env m s).1.hpLastTime = s.hpLastTime) := by
  unfold failInternal
  split_ifs <;> simp

/-- `failInternal` never clears the failed flag. -/
theorem failInternal_failed_mono (env : FailEnv) (m : Mods) (s : SubSet)
    (h : s.failed = true) : (failInternal env m s).1.failed = true := by
  unfold failInternal
  split_ifs <;> simp [h]

/-- The fail listener fires in `failInternal` only on the transition: the
player was not failed before, and is failed after. -/
theorem failInternal_fired (env : FailEnv) (m : Mods) (s : SubSet)
    (h : (failInternal env m s).2 = true) :
    s.failed = false ∧ (failInternal env m s).1.failed = true := by
  unfold failInternal at *
  split_ifs at h ⊢ <;> simp_all

/-- `hpIncrease` only touches `hp`, `recoveries` and `failed`. -/
theorem hpIncrease_frame (env : FailEnv) (m : Mods) (b : Bool) (amt : ℚ)
    (s : SubSet) :
    ((hpIncrease env m b amt s).1.score = s.score) ∧
    ((hpIncrease env m b amt s).1.rawScore = s.rawScore) ∧
    ((hpIncrease env m b amt s).1.currentKatu = s.currentKatu) ∧
    ((hpIncrease env m b amt s).1.currentBad = s.currentBad) ∧
    ((hpIncrease env m b amt s).1.numObjects = s.numObjects) ∧
    ((hpIncrease env m b amt s).1.sdpfFail = s.sdpfFail) ∧
    ((hpIncrease env m b amt s).1.forceFail = s.forceFail) ∧
    ((hpIncrease env m b amt s).1.processorCombo = s.processorCombo) ∧
    ((hpIncrease env m b amt s).1.processorScore = s.processorScore) ∧
    ((hpIncrease env m b amt s).1.hpLastTime = s.hpLastTime) := by
  unfold hpIncrease
  split
  · exact failInternal_frame env m _
  · simp

theorem hpIncrease_failed_mono (env : FailEnv) (m : Mods) (b : Bool) (amt : ℚ)
    (s : SubSet) (h : s.failed = true) :
    (hpIncrease env m b amt s).1.failed = true := by
  unfold hpIncrease
  split
  · exact failInternal_failed_mono env m _ h
  · simpa using h

theorem hpIncrease_fired (env : FailEnv) (m : Mods) (b : Bool) (amt : ℚ)
    (s : SubSet) (h : (hpIncrease env m b amt s).2 = true) :
    s.failed = false ∧ (hpIncrease env m b amt s).1.failed = true := by
  unfold hpIncrease at *
  split at h
  · rename_i hcond
    rw [if_pos hcond]
    exact failInternal_fired env m _ h
  · simp at h

end FrameLemmas

section StageLemmas

theorem applyTallies_fields (r : HitResult) (c : ComboResult) (s : SubSet) :
    ((applyTallies r c s).processorCombo = s.processorCombo) ∧
    ((applyTallies r c s).processorScore = s.processorScore) ∧
    ((applyTallies r c s).numObjects
        = s.numObjects + (if r.isBaseHitM then 1 else 0)) ∧
    ((applyTallies r c s).rawScore
        = s.rawScore + (if r.isBaseHitM then r.ScoreValue else 0)) ∧
    ((applyTallies r c s).score.count300
        = s.score.count300 + (if r = HitResult.Hit300 then 1 else 0)) ∧
    ((applyTallies r c s).score.count100
        = s.score.count100 + (if r = HitResult.Hit100 then 1 else 0)) ∧
    ((applyTallies r c s).score.count50
        = s.score.count50 + (if r = HitResult.Hit50 then 1 else 0)) ∧
    ((applyTallies r c s).score.countMiss
        = s.score.countMiss + (if r = HitResult.Miss then 1 else 0)) ∧
    ((applyTallies r c s).score.countSB
        = s.score.countSB
            + (if c = ComboResult.Reset ∧ r ≠ HitResult.Miss then 1 else 0)) ∧
    ((applyTallies r c s).score.combo = s.score.combo) ∧
    ((applyTallies r c s).sdpfFail = s.sdpfFail) ∧
    ((applyTallies r c s).failed = s.failed) := by
  unfold applyTallies
  cases r <;> simp [HitResult.isBaseHitM] <;> split_ifs <;> simp_all

theorem applyDerived_fields (m : Mods) (inp : SendInput) (s : SubSet) :
    ((applyDerived m inp s).score.combo = max s.processorCombo s.score.combo) ∧
    ((applyDerived m inp s).score.accuracy
        = (if s.numObjects = 0 then (100 : ℚ)
           else 100 * (s.rawScore : ℚ) / ((s.numObjects : ℚ) * 300))) ∧
    ((applyDerived m inp s).score.grade
        = computeGrade m.hdfl s.numObjects s.score.count300 s.score.count50
            s.score.countMiss) ∧
    ((applyDerived m inp s).score.perfectCombo
        = decide (inp.mcAttr = max s.processorCombo s.score.combo)) ∧
    ((applyDerived m inp s).processorCombo = s.processorCombo) ∧
    ((applyDerived m inp s).processorScore = s.processorScore) ∧
    ((applyDerived m inp s).numObjects = s.numObjects) ∧
    ((applyDerived m inp s).rawScore = s.rawScore) ∧
    ((applyDerived m inp s).score.count300 = s.score.count300) ∧
    ((applyDerived m inp s).score.count100 = s.score.count100) ∧
    ((applyDerived m inp s).score.count50 = s.score.count50) ∧
    ((applyDerived m inp s).score.countMiss = s.score.countMiss) ∧
    ((applyDerived m inp s).score.countSB = s.score.countSB) ∧
    ((applyDerived m inp s).sdpfFail = s.sdpfFail) ∧
    ((applyDerived m inp s).failed = s.failed) := by
  unfold applyDerived
  simp

theorem applyKatu_fields (r : HitResult) (ce ac : Bool) (s : SubSet) :
    ((applyKatu r ce ac s).score.combo = s.score.combo) ∧
    ((applyKatu r ce ac s).score.accuracy = s.score.accuracy) ∧
    ((applyKatu r ce ac s).score.grade = s.score.grade) ∧
    ((applyKatu r ce ac s).score.perfectCombo = s.score.perfectCombo) ∧
    ((applyKatu r ce ac s).processorCombo = s.processorCombo) ∧
    ((applyKatu r ce ac s).processorScore = s.processorScore) ∧
    ((applyKatu r ce ac s).numObjects = s.numObjects) ∧
    ((applyKatu r ce ac s).rawScore = s.rawScore) ∧
    ((applyKatu r ce ac s).score.count300 = s.score.count300) ∧
    ((applyKatu r ce ac s).score.count100 = s.score.count100) ∧
    ((applyKatu r ce ac s).score.count50 = s.score.count50) ∧
    ((applyKatu r ce ac s).score.countMiss = s.score.countMiss) ∧
    ((applyKatu r ce ac s).score.countSB = s.score.countSB) ∧
    ((applyKatu r ce ac s).sdpfFail = s.sdpfFail) ∧
    ((applyKatu r ce ac s).failed = s.failed) := by
  unfold applyKatu
  cases r <;> cases ce <;>
    simp [HitResult.isBaseHitM, HitResult.isBaseHit] <;> split_ifs <;> simp

/-- Field-level specification of `SendResult` for inputs that are actually
recorded (not `Ignore`/`PositionalMiss`), in terms of the adjusted
judgement. -/
theorem SendResult_spec (env : FailEnv) (m : Mods) (inp : SendInput) (s : SubSet)
    (h : ¬(inp.result = HitResult.Ignore ∨ inp.result = HitResult.PositionalMiss)) :
    ((SendResult env m inp s).1.processorCombo
        = comboApply (adjustJudgement m inp.result inp.comboResult).2.1
            s.processorCombo) ∧
    ((SendResult env m inp s).1.score.combo
        = max (comboApply (adjustJudgement m inp.result inp.comboResult).2.1
            s.processorCombo) s.score.combo) ∧
    ((SendResult env m inp s).1.numObjects
        = s.numObjects
            + (if (adjustJudgement m inp.result inp.comboResult).1.isBaseHitM
               then 1 else 0)) ∧
    ((SendResult env m inp s).1.rawScore
        = s.rawScore
            + (if (adjustJudgement m inp.result inp.comboResult).1.isBaseHitM
               then (adjustJudgement m inp.result inp.comboResult).1.ScoreValue
               else 0)) ∧
    ((SendResult env m inp s).1.score.count300
        = s.score.count300
            + (if (adjustJudgement m inp.result inp.comboResult).1 = HitResult.Hit300
               then 1 else 0)) ∧
    ((SendResult env m inp s).1.score.count100
        = s.score.count100
            + (if (adjustJudgement m inp.result inp.comboResult).1 = HitResult.Hit100
               then 1 else 0)) ∧
    ((SendResult env m inp s).1.score.count50
        = s.score.count50
            + (if (adjustJudgement m inp.result inp.comboResult).1 = HitResult.Hit50
               then 1 else 0)) ∧
    ((SendResult env m inp s).1.score.countMiss
        = s.score.countMiss
            + (if (adjustJudgement m inp.result inp.comboResult).1 = HitResult.Miss
               then 1 else 0)) ∧
    ((SendResult env m inp s).1.score.countSB
        = s.score.countSB
            + (if (adjustJudgement m inp.result inp.comboResult).2.1 = ComboResult.Reset
                  ∧ (adjustJudgement m inp.result inp.comboResult).1 ≠ HitResult.Miss
               then 1 else 0)) ∧
    ((SendResult env m inp s).1.score.accuracy
        = (if (SendResult env m inp s).1.numObjects = 0 then (100 : ℚ)
           else 100 * ((SendResult env m inp s).1.rawScore : ℚ)
              / (((SendResult env m inp s).1.numObjects : ℚ) * 300))) ∧
    ((SendResult env m inp s).1.score.grade
        = computeGrade m.hdfl (SendResult env m inp s).1.numObjects
            (SendResult env m inp s).1.score.count300
            (SendResult env m inp s).1.score.count50
            (SendResult env m inp s).1.score.countMiss) ∧
    ((SendResult env m inp s).1.score.perfectCombo
        = decide (inp.mcAttr = (SendResult env m inp s).1.score.combo)) ∧
    ((SendResult env m inp s).1.sdpfFail
        = ((adjustJudgement m inp.result inp.comboResult).2.2 || s.sdpfFail)) := by
  unfold SendResult
  rw [if_neg h]
  simp only [applyKatu_fields, applyDerived_fields, applyTallies_fields,
    hpIncrease_frame, processorAddResult]
  split_ifs <;> simp_all

theorem SendResult_failed_mono (env : FailEnv) (m : Mods) (inp : SendInput)
    (s : SubSet) (h : s.failed = true) :
    (SendResult env m inp s).1.failed = true := by
  unfold SendResult
  split_ifs with h0
  · simpa using h
  · apply hpIncrease_failed_mono
    simp only [applyKatu_fields, applyDerived_fields, applyTallies_fields,
      processorAddResult]
    split_ifs <;> simp_all

theorem SendResult_fired (env : FailEnv) (m : Mods) (inp : SendInput)
    (s : SubSet) (h : (SendResult env m inp s).2 = true) :
    s.failed = false ∧ (SendResult env m inp s).1.failed = true := by
  by_cases h0 : inp.result = HitResult.Ignore ∨ inp.result = HitResult.PositionalMiss
  · unfold SendResult at h
    rw [if_pos h0] at h
    simp at h
  · unfold SendResult at h ⊢
    rw [if_neg h0] at h ⊢
    have hf := hpIncrease_fired _ _ _ _ _ h
    refine ⟨?_, hf.2⟩
    have h4 := hf.1
    simp only [applyKatu_fields, applyDerived_fields, applyTallies_fields,
      processorAddResult] at h4
    split_ifs at h4 <;> simp_all

theorem PlayerStopped_failed_mono (env : FailEnv) (m : Mods) (t e : ℤ)
    (s : SubSet) (h : s.failed = true) :
    (PlayerStopped env m t e s).1.failed = true := by
  unfold PlayerStopped
  split_ifs
  all_goals first
  | exact hpIncrease_failed_mono _ _ _ _ _ h
  | simpa using h

theorem PlayerStopped_fired (env : FailEnv) (m : Mods) (t e : ℤ) (s : SubSet)
    (h : (PlayerStopped env m t e s).2 = true) :
    s.failed = false ∧ (PlayerStopped env m t e s).1.failed = true := by
  unfold PlayerStopped at *
  split_ifs at h ⊢
  all_goals first
  | exact hpIncrease_fired _ _ _ _ _ h
  | simp at h

theorem hpUpdate_failed_mono (env : FailEnv) (m : Mods) (dr : ℚ) (t : ℤ)
    (s : SubSet) (h : s.failed = true) :
    (hpUpdate env m dr t s).1.failed = true := by
  unfold hpUpdate
  split_ifs
  all_goals first
  | simpa using h
  | exact absurd h (by assumption)

theorem hpUpdate_fired (env : FailEnv) (m : Mods) (dr : ℚ) (t : ℤ) (s : SubSet)
    (h : (hpUpdate env m dr t s).2 = true) :
    s.failed = false ∧ (hpUpdate env m dr t s).1.failed = true := by
  unfold hpUpdate at *
  split_ifs at h ⊢
  all_goals first
  | exact hpIncrease_fired _ _ _ _ _ h
  | simp at h

theorem stepEvent_failed_mono (env : FailEnv) (m : Mods) (dr : ℚ) (s : SubSet)
    (e : Event) (h : s.failed = true) :
    (stepEvent env m dr s e).1.failed = true := by
  cases e with
  | send inp => exact SendResult_failed_mono env m inp s h
  | tick t => exact hpUpdate_failed_mono env m dr t s h
  | stop t le => exact PlayerStopped_failed_mono env m t le s h

theorem stepEvent_fired (env : FailEnv) (m : Mods) (dr : ℚ) (s : SubSet)
    (e : Event) (h : (stepEvent env m dr s e).2 = true) :
    s.failed = false ∧ (stepEvent env m dr s e).1.failed = true := by
  cases e with
  | send inp => exact SendResult_fired env m inp s h
  | tick t => exact hpUpdate_fired env m dr t s h
  | stop t le => exact PlayerStopped_fired env m t le s h

theorem runEvents_failed_mono (env : FailEnv) (m : Mods) (dr : ℚ) :
    ∀ (evs : List Event) (s : SubSet), s.failed = true →
      (runEvents env m dr evs s).1.failed = true := by
  intro evs
  induction evs with
  | nil => intro s h; simpa [runEvents] using h
  | cons e es ih =>
    intro s h
    simp only [runEvents]
    exact ih _ (stepEvent_failed_mono env m dr s e h)

theorem runEvents_fires_le (env : FailEnv) (m : Mods) (dr : ℚ) :
    ∀ (evs : List Event) (s : SubSet),
      (runEvents env m dr evs s).2 ≤ if s.failed = true then 0 else 1 := by
  intro evs
  induction evs with
  | nil => intro s; simp [runEvents]
  | cons e es ih =>
    intro s
    simp only [runEvents]
    by_cases hf : (stepEvent env m dr s e).2 = true
    · have h2 := stepEvent_fired env m dr s e hf
      have h3 := ih (stepEvent env m dr s e).1
      rw [if_pos h2.2] at h3
      simp [hf, h2.1]
      omega
    · have h3 := ih (stepEvent env m dr s e).1
      by_cases hsf : s.failed = true
      · have := stepEvent_failed_mono env m dr s e hsf
        rw [if_pos this] at h3
        simp [hf, hsf]
        omega
      · simp [hf, hsf]
        split_ifs at h3 <;> omega

theorem runEvents_append (env : FailEnv) (m : Mods) (dr : ℚ) :
    ∀ (l1 l2 : List Event) (s : SubSet),
      runEvents env m dr (l1 ++ l2) s
        = ((runEvents env m dr l2 (runEvents env m dr l1 s).1).1,
           (runEvents env m dr l1 s).2
             + (runEvents env m dr l2 (runEvents env m dr l1 s).1).2) := by
  intro l1
  induction l1 with
  | nil => intro l2 s; simp [runEvents]
  | cons e es ih =>
    intro l2 s
    simp only [List.cons_append, runEvents, List.append_eq, ih, Nat.add_assoc]

/-- The recovery-credit and fail-listener behaviour of `failInternal` when
the replay-ignore setting and the fail-preventing modifiers are out of the
way: with credits left (and neither `sdpfFail` nor `forceFail` pending) one
credit is consumed and 160 HP restored without firing the listener; with zero
credits the listener fires and the player fails. -/
theorem failInternal_recovery_spec (env : FailEnv) (m : Mods) (s : SubSet)
    (hreplay : ¬(env.isReplay = true ∧ env.ignoreFailsInReplays = true))
    (hnf : m.noFailLike = false)
    (hsdpf : s.sdpfFail = false) (hforce : s.forceFail = false) :
    (0 < s.recoveries →
      failInternal env m s
        = ({ s with hp := clampHp (s.hp + 160), recoveries := s.recoveries - 1 },
           false)) ∧
    (s.recoveries = 0 → env.hasFailListener = true → s.failed = false →
      (failInternal env m s).2 = true ∧ (failInternal env m s).1.failed = true) := by
  unfold failInternal
  rw [if_neg hreplay, if_neg (by simp [hnf])]
  constructor
  · intro hr
    rw [if_pos ⟨hr, hsdpf, hforce⟩]
  · intro hr hl hf
    rw [if_neg (by simp [hr])]
    simp [hl, hf]

/-- `PlayerStopped` before the map's end forces the fail transition through
both the fail-preventing modifiers and the recovery credits: no hypothesis
on `m` or on `s.recoveries` is needed. -/
theorem playerStopped_forces_fail (env : FailEnv) (m : Mods) (t lastEnd : ℤ)
    (s : SubSet) (ht : t < lastEnd - 1)
    (hreplay : ¬(env.isReplay = true ∧ env.ignoreFailsInReplays = true))
    (hlist : env.hasFailListener = true) (hfailed : s.failed = false)
    (hhp : s.hp ≤ MaxHp) :
    (PlayerStopped env m t lastEnd s).2 = true ∧
    (PlayerStopped env m t lastEnd s).1.forceFail = true ∧
    (PlayerStopped env m t lastEnd s).1.failed = true := by
  unfold PlayerStopped
  rw [if_pos ht]
  have hcl : clampHp ({ s with forceFail := true }.hp + -10000) ≤ 0 := by
    have h1 : s.hp + -10000 ≤ 0 := by
      have := hhp
      unfold MaxHp at this
      linarith
    exact max_le le_rfl (le_trans (min_le_left _ _) h1)
  unfold hpIncrease
  rw [if_pos ⟨rfl, hcl⟩]
  unfold failInternal
  rw [if_neg hreplay, if_neg (by simp), if_neg (by simp)]
  simp [hlist, hfailed]

end StageLemmas

section Claims

/-- Fixture modifiers: all off. -/
def modsOff : Mods :=
  { suddenDeath := false, perfect := false, noFail := false, relax := false,
    relax2 := false, hidden := false, flashlight := false, easy := false }

/-- Fixture environment: live play, fail listener registered. -/
def envLive : FailEnv :=
  { isReplay := false, ignoreFailsInReplays := false, hasFailListener := true }

/-- **C1**: For every player, once the failed flag becomes true it never
reverts to false for the rest of the session, and the registered fail
listener is invoked at most once for that player across the whole session,
no matter how many times the fail transition is triggered afterwards. The
session is an arbitrary interleaving of judgements (`SendResult`), health
ticks (`hpUpdate` from `Update`) and `PlayerStopped` notifications; the
second component of `runEvents` counts fail-listener invocations. -/
theorem C1_failed_monotone_listener_once (env : FailEnv) (m : Mods) (dr : ℚ)
    (evs1 evs2 : List Event)
    (h : (runEvents env m dr evs1 (initialSubSet m)).1.failed = true) :
    (runEvents env m dr (evs1 ++ evs2) (initialSubSet m)).1.failed = true ∧
    (runEvents env m dr (evs1 ++ evs2) (initialSubSet m)).2 ≤ 1 := by
  rw [runEvents_append]
  constructor
  · exact runEvents_failed_mono env m dr evs2 _ h
  · have h1 := runEvents_fires_le env m dr evs1 (initialSubSet m)
    have h2 := runEvents_fires_le env m dr evs2
      (runEvents env m dr evs1 (initialSubSet m)).1
    rw [if_pos h] at h2
    have h0 : (initialSubSet m).failed = false := rfl
    rw [if_neg (by simp [h0])] at h1
    simp only
    omega

/-- Witness for C1: a session whose first half fails the player by an early
`PlayerStopped`, and whose second half triggers the fail transition twice
more; the flag stays set and the listener total stays at one. -/
theorem C1_witness :
    (runEvents envLive modsOff 0
        ([Event.stop 0 1000] ++ [Event.stop 0 1000, Event.tick 5])
        (initialSubSet modsOff)).1.failed = true ∧
    (runEvents envLive modsOff 0
        ([Event.stop 0 1000] ++ [Event.stop 0 1000, Event.tick 5])
        (initialSubSet modsOff)).2 ≤ 1 := by
  apply C1_failed_monotone_listener_once
  simp only [runEvents, stepEvent]
  exact (playerStopped_forces_fail envLive modsOff 0 1000 (initialSubSet modsOff)
    (by decide) (by decide) rfl rfl (le_of_eq rfl)).2.2

/-- Fixture for C4: Easy modifier grants two recovery credits. -/
def modsEasy : Mods := { modsOff with easy := true }

/-- Fixture for C4: the same player with its credits exhausted. -/
def subNoCredits : SubSet := { initialSubSet modsEasy with recoveries := 0 }

/-- **C4**: For every player whose would-be fail transition occurs while
their recovery-credit count is positive (and no sudden-death/perfect override
or forced fail is pending), exactly one credit is consumed, HP is restored by
a fixed amount (160, clamped to range), and the fail listener is not invoked;
when the transition occurs with zero credits remaining, the fail listener is
invoked. The replay-ignore setting and the fail-preventing modifiers are
assumed out of the way, as in the claim's premise that a fail would occur. -/
theorem C4_recovery_credits (env : FailEnv) (m : Mods) (s : SubSet)
    (hreplay : ¬(env.isReplay = true ∧ env.ignoreFailsInReplays = true))
    (hnf : m.noFailLike = false)
    (hsdpf : s.sdpfFail = false) (hforce : s.forceFail = false) :
    (0 < s.recoveries →
      failInternal env m s
        = ({ s with hp := clampHp (s.hp + 160), recoveries := s.recoveries - 1 },
           false)) ∧
    (s.recoveries = 0 → env.hasFailListener = true → s.failed = false →
      (failInternal env m s).2 = true ∧ (failInternal env m s).1.failed = true) :=
  failInternal_recovery_spec env m s hreplay hnf hsdpf hforce

/-- Witness for C4: with the Easy modifier's two credits the first would-be
fail only consumes a credit; with zero credits the listener fires. -/
theorem C4_witness :
    (failInternal envLive modsEasy (initialSubSet modsEasy)
       = ({ initialSubSet modsEasy with
              hp := clampHp ((initialSubSet modsEasy).hp + 160)
              recoveries := (initialSubSet modsEasy).recoveries - 1 },
           false)) ∧
    ((failInternal envLive modsEasy subNoCredits).2 = true ∧
     (failInternal envLive modsEasy subNoCredits).1.failed = true) := by
  constructor
  · exact (C4_recovery_credits envLive modsEasy (initialSubSet modsEasy)
      (by decide) (by decide) rfl rfl).1 (by decide)
  · exact (C4_recovery_credits envLive modsEasy subNoCredits
      (by decide) (by decide) rfl rfl).2 rfl rfl rfl

/-- Fixture for C10: NoFail active and recovery credits available, to show
both protections are bypassed. -/
def modsNoFailEasy : Mods := { modsOff with noFail := true, easy := true }

/-- **C10**: If `PlayerStopped` is called for a player at a time earlier than
the last hit object's end time minus 1 ms, that player's forced-fail flag is
set and the resulting fail transition invokes the fail listener even when a
fail-preventing modifier (NoFail/Relax/Autopilot) is active and even when
recovery credits remain: no hypothesis on the modifier set or the credit
count appears. -/
theorem C10_player_stopped_forces_fail (env : FailEnv) (m : Mods)
    (t lastEnd : ℤ) (s : SubSet) (ht : t < lastEnd - 1)
    (hreplay : ¬(env.isReplay = true ∧ env.ignoreFailsInReplays = true))
    (hlist : env.hasFailListener = true) (hfailed : s.failed = false)
    (hhp : s.hp ≤ MaxHp) :
    (PlayerStopped env m t lastEnd s).2 = true ∧
    (PlayerStopped env m t lastEnd s).1.forceFail = true ∧
    (PlayerStopped env m t lastEnd s).1.failed = true :=
  playerStopped_forces_fail env m t lastEnd s ht hreplay hlist hfailed hhp

/-- Witness for C10: a player on NoFail+Easy (credits available) stopped at
time 0 on a map ending at 1000 ms still fails and fires the listener. -/
theorem C10_witness :
    (PlayerStopped envLive modsNoFailEasy 0 1000
        (initialSubSet modsNoFailEasy)).2 = true ∧
    (PlayerStopped envLive modsNoFailEasy 0 1000
        (initialSubSet modsNoFailEasy)).1.forceFail = true ∧
    (PlayerStopped envLive modsNoFailEasy 0 1000
        (initialSubSet modsNoFailEasy)).1.failed = true :=
  C10_player_stopped_forces_fail envLive modsNoFailEasy 0 1000
    (initialSubSet modsNoFailEasy) (by decide) (by decide) rfl rfl (le_of_eq rfl)

theorem ScoreValue_base_bounds (r : HitResult) (h : r.isBaseHitM = true) :
    0 ≤ r.ScoreValue ∧ r.ScoreValue ≤ 300 := by
  cases r <;> simp_all [HitResult.isBaseHitM, HitResult.ScoreValue]

/-- `hpUpdate` only touches `hp`, `recoveries`, `failed` and `hpLastTime`. -/
theorem hpUpdate_frame (env : FailEnv) (m : Mods) (dr : ℚ) (t : ℤ) (s : SubSet) :
    ((hpUpdate env m dr t s).1.score = s.score) ∧
    ((hpUpdate env m dr t s).1.rawScore = s.rawScore) ∧
    ((hpUpdate env m dr t s).1.numObjects = s.numObjects) ∧
    ((hpUpdate env m dr t s).1.processorCombo = s.processorCombo) ∧
    ((hpUpdate env m dr t s).1.processorScore = s.processorScore) ∧
    ((hpUpdate env m dr t s).1.sdpfFail = s.sdpfFail) := by
  unfold hpUpdate
  split_ifs
  · simp
  · have := hpIncrease_frame env m true
      (-(dr * ((t : ℚ) - (s.hpLastTime : ℚ)))) { s with hpLastTime := t }
    tauto

/-- `PlayerStopped` only touches `hp`, `recoveries`, `failed` and
`forceFail`. -/
theorem PlayerStopped_frame (env : FailEnv) (m : Mods) (t e : ℤ) (s : SubSet) :
    ((PlayerStopped env m t e s).1.score = s.score) ∧
    ((PlayerStopped env m t e s).1.rawScore = s.rawScore) ∧
    ((PlayerStopped env m t e s).1.numObjects = s.numObjects) ∧
    ((PlayerStopped env m t e s).1.processorCombo = s.processorCombo) ∧
    ((PlayerStopped env m t e s).1.processorScore = s.processorScore) ∧
    ((PlayerStopped env m t e s).1.sdpfFail = s.sdpfFail) := by
  unfold PlayerStopped
  split_ifs
  · have := hpIncrease_frame env m true (-10000) { s with forceFail := true }
    tauto
  · simp

/-- The accuracy invariant of a per-player state: the raw score is within
`[0, 300 * numObjects]` and the published accuracy is exactly the formula of
`SendResult` lines 603-607. -/
def AccInv (s : SubSet) : Prop :=
  0 ≤ s.rawScore ∧ s.rawScore ≤ 300 * (s.numObjects : ℤ) ∧
  s.score.accuracy
    = (if s.numObjects = 0 then (100 : ℚ)
       else 100 * (s.rawScore : ℚ) / ((s.numObjects : ℚ) * 300))

theorem AccInv_initial (m : Mods) : AccInv (initialSubSet m) := by
  refine ⟨le_refl 0, by simp [initialSubSet], ?_⟩
  simp [initialSubSet]

theorem AccInv_step (env : FailEnv) (m : Mods) (dr : ℚ) (s : SubSet) (e : Event)
    (h : AccInv s) : AccInv ((stepEvent env m dr s e).1) := by
  obtain ⟨h0, h1, h2⟩ := h
  cases e with
  | tick t =>
    have hf := hpUpdate_frame env m dr t s
    unfold AccInv
    simp only [stepEvent]
    rw [hf.1, hf.2.1, hf.2.2.1]
    exact ⟨h0, h1, h2⟩
  | stop t le =>
    have hf := PlayerStopped_frame env m t le s
    unfold AccInv
    simp only [stepEvent]
    rw [hf.1, hf.2.1, hf.2.2.1]
    exact ⟨h0, h1, h2⟩
  | send inp =>
    simp only [stepEvent]
    by_cases he : inp.result = HitResult.Ignore ∨ inp.result = HitResult.PositionalMiss
    · unfold SendResult
      rw [if_pos he]
      exact ⟨h0, h1, h2⟩
    · have hs := SendResult_spec env m inp s he
      set a := adjustJudgement m inp.result inp.comboResult with ha
      have hn : (SendResult env m inp s).1.numObjects
          = s.numObjects + (if a.1.isBaseHitM then 1 else 0) := hs.2.2.1
      have hr : (SendResult env m inp s).1.rawScore
          = s.rawScore + (if a.1.isBaseHitM then a.1.ScoreValue else 0) :=
        hs.2.2.2.1
      have hacc := hs.2.2.2.2.2.2.2.2.2.1
      refine ⟨?_, ?_, hacc⟩
      · rw [hr]
        split_ifs with hb
        · have := (ScoreValue_base_bounds a.1 hb).1
          omega
        · omega
      · rw [hr, hn]
        split_ifs with hb
        · have := (ScoreValue_base_bounds a.1 hb).2
          push_cast
          omega
        · push_cast
          omega

theorem AccInv_run (env : FailEnv) (m : Mods) (dr : ℚ) :
    ∀ (evs : List Event) (s : SubSet), AccInv s →
      AccInv (runEvents env m dr evs s).1 := by
  intro evs
  induction evs with
  | nil => intro s h; simpa [runEvents] using h
  | cons e es ih =>
    intro s h
    simp only [runEvents]
    exact ih _ (AccInv_step env m dr s e h)

/-- **C2**: For every player and after every judgement recorded via
`SendResult` (and any interleaving of health ticks and stop notifications),
the published accuracy is in the range [0,100], and it equals exactly 100
when zero base-hit objects have been judged for that player (including the
initial state before any judgement, which `NewOsuRuleset` creates with
accuracy 100). -/
theorem C2_accuracy_bounds (env : FailEnv) (m : Mods) (dr : ℚ)
    (evs : List Event) :
    0 ≤ (runEvents env m dr evs (initialSubSet m)).1.score.accuracy ∧
    (runEvents env m dr evs (initialSubSet m)).1.score.accuracy ≤ 100 ∧
    ((runEvents env m dr evs (initialSubSet m)).1.numObjects = 0 →
      (runEvents env m dr evs (initialSubSet m)).1.score.accuracy = 100) := by
  obtain ⟨h0, h1, h2⟩ := AccInv_run env m dr evs (initialSubSet m)
    (AccInv_initial m)
  set s := (runEvents env m dr evs (initialSubSet m)).1
  by_cases hn : s.numObjects = 0
  · rw [h2, if_pos hn]
    norm_num
  · rw [h2, if_neg hn]
    have hnpos : (0 : ℚ) < (s.numObjects : ℚ) * 300 := by
      have : 0 < s.numObjects := Nat.pos_of_ne_zero hn
      positivity
    refine ⟨?_, ?_, fun h => absurd h hn⟩
    · apply div_nonneg _ (le_of_lt hnpos)
      have : (0 : ℚ) ≤ (s.rawScore : ℚ) := by exact_mod_cast h0
      linarith
    · rw [div_le_iff₀ hnpos]
      have : (s.rawScore : ℚ) ≤ 300 * (s.numObjects : ℚ) := by exact_mod_cast h1
      linarith

/-- Witness for C2: after the empty session the published accuracy is exactly
100, with zero objects judged. -/
theorem C2_witness :
    (runEvents envLive modsOff 0 [] (initialSubSet modsOff)).1.score.accuracy
      = 100 :=
  (C2_accuracy_bounds envLive modsOff 0 []).2.2 rfl

theorem combo_step (env : FailEnv) (m : Mods) (dr : ℚ) (s : SubSet) (e : Event)
    (h : s.processorCombo ≤ s.score.combo) :
    (stepEvent env m dr s e).1.processorCombo
        ≤ (stepEvent env m dr s e).1.score.combo ∧
    s.score.combo ≤ (stepEvent env m dr s e).1.score.combo := by
  cases e with
  | tick t =>
    have hf := hpUpdate_frame env m dr t s
    simp only [stepEvent]
    rw [hf.1, hf.2.2.2.1]
    exact ⟨h, le_refl _⟩
  | stop t le =>
    have hf := PlayerStopped_frame env m t le s
    simp only [stepEvent]
    rw [hf.1, hf.2.2.2.1]
    exact ⟨h, le_refl _⟩
  | send inp =>
    simp only [stepEvent]
    by_cases he : inp.result = HitResult.Ignore ∨ inp.result = HitResult.PositionalMiss
    · unfold SendResult
      rw [if_pos he]
      exact ⟨h, le_refl _⟩
    · have hs := SendResult_spec env m inp s he
      rw [hs.1, hs.2.1]
      exact ⟨le_max_left _ _, le_max_right _ _⟩

theorem combo_inv_run (env : FailEnv) (m : Mods) (dr : ℚ) :
    ∀ (evs : List Event) (s : SubSet),
      s.processorCombo ≤ s.score.combo →
      (runEvents env m dr evs s).1.processorCombo
          ≤ (runEvents env m dr evs s).1.score.combo ∧
      s.score.combo ≤ (runEvents env m dr evs s).1.score.combo := by
  intro evs
  induction evs with
  | nil => intro s h; simpa [runEvents] using h
  | cons e es ih =>
    intro s h
    simp only [runEvents]
    obtain ⟨ha, hb⟩ := combo_step env m dr s e h
    obtain ⟨hc, hd⟩ := ih _ ha
    exact ⟨hc, le_trans hb hd⟩

/-- **C3**: For every player, at every point in a session the published max
combo (`Score.Combo`) is greater than or equal to the score processor's
current combo, and the published max combo is non-decreasing over the
sequence of `SendResult` calls (and of the other session events). -/
theorem C3_max_combo_invariant (env : FailEnv) (m : Mods) (dr : ℚ)
    (evs1 evs2 : List Event) :
    (runEvents env m dr evs1 (initialSubSet m)).1.processorCombo
        ≤ (runEvents env m dr evs1 (initialSubSet m)).1.score.combo ∧
    (runEvents env m dr evs1 (initialSubSet m)).1.score.combo
        ≤ (runEvents env m dr (evs1 ++ evs2) (initialSubSet m)).1.score.combo := by
  have h0 : (initialSubSet m).processorCombo ≤ (initialSubSet m).score.combo :=
    le_refl 0
  obtain ⟨h1, _⟩ := combo_inv_run env m dr evs1 (initialSubSet m) h0
  rw [runEvents_append]
  exact ⟨h1, (combo_inv_run env m dr evs2 _ h1).2⟩

theorem adjustJudgement_perfect (m : Mods) (r : HitResult) (c : ComboResult)
    (hp : m.perfect = true) (hb : r.isBaseHitM = true)
    (h3 : r ≠ HitResult.Hit300) :
    adjustJudgement m r c
      = (HitResult.Miss, ComboResult.Reset, true) := by
  unfold adjustJudgement sdpfHits sdpfDowngrade
  rw [if_pos (by simp [hp, hb, h3])]
  simp [hb]

theorem adjustJudgement_sdpf_slider (m : Mods) (r : HitResult)
    (hm : m.suddenDeath = true ∨ m.perfect = true)
    (hs : r.isSliderHit = true) :
    adjustJudgement m r ComboResult.Reset
      = (HitResult.SliderMiss, ComboResult.Reset, true) := by
  have hb : r.isBaseHitM = false := by
    cases r <;> simp_all [HitResult.isSliderHit, HitResult.isBaseHitM]
  unfold adjustJudgement sdpfHits sdpfDowngrade
  rw [if_pos (by rcases hm with hm | hm <;> simp [hm])]
  simp [hb, hs]

theorem sliderHit_not_special (r : HitResult) (hs : r.isSliderHit = true) :
    ¬(r = HitResult.Ignore ∨ r = HitResult.PositionalMiss) := by
  cases r <;> simp_all [HitResult.isSliderHit]

theorem baseHit_not_special (r : HitResult) (hb : r.isBaseHitM = true) :
    ¬(r = HitResult.Ignore ∨ r = HitResult.PositionalMiss) := by
  cases r <;> simp_all [HitResult.isBaseHitM]

/-- **C5**: For every `SendResult` call by a player with the Perfect modifier
active and a base judgement below the top tier (or with SuddenDeath/Perfect
active and a combo-reset result), the recorded judgement is downgraded to
Miss (SliderMiss for slider-part hits) with combo result Reset before the
score processor is updated, and all downstream combo/score/health updates use
the adjusted result, not the original: a downgraded `Hit100`/`Hit50` tallies
as a Miss (not in its original column), resets the processor combo, adds no
raw score, and raises the `sdpfFail` flag that routes the health update to
the forced drain. -/
theorem C5_sdpf_downgrade (env : FailEnv) (m : Mods) (inp : SendInput)
    (s : SubSet) :
    (m.perfect = true → inp.result.isBaseHitM = true →
      inp.result ≠ HitResult.Hit300 →
      adjustJudgement m inp.result inp.comboResult
          = (HitResult.Miss, ComboResult.Reset, true) ∧
      (SendResult env m inp s).1.score.countMiss = s.score.countMiss + 1 ∧
      (SendResult env m inp s).1.score.count300 = s.score.count300 ∧
      (SendResult env m inp s).1.score.count100 = s.score.count100 ∧
      (SendResult env m inp s).1.score.count50 = s.score.count50 ∧
      (SendResult env m inp s).1.processorCombo = 0 ∧
      (SendResult env m inp s).1.rawScore = s.rawScore ∧
      (SendResult env m inp s).1.sdpfFail = true) ∧
    ((m.suddenDeath = true ∨ m.perfect = true) →
      inp.comboResult = ComboResult.Reset → inp.result.isSliderHit = true →
      adjustJudgement m inp.result inp.comboResult
          = (HitResult.SliderMiss, ComboResult.Reset, true) ∧
      (SendResult env m inp s).1.score.countSB = s.score.countSB + 1 ∧
      (SendResult env m inp s).1.numObjects = s.numObjects ∧
      (SendResult env m inp s).1.processorCombo = 0 ∧
      (SendResult env m inp s).1.sdpfFail = true) := by
  constructor
  · intro hp hb h3
    have ha := adjustJudgement_perfect m inp.result inp.comboResult hp hb h3
    have hs := SendResult_spec env m inp s (baseHit_not_special _ hb)
    rw [ha] at hs
    refine ⟨ha, ?_, ?_, ?_, ?_, ?_, ?_, ?_⟩
    · simpa using hs.2.2.2.2.2.2.2.1
    · simpa using hs.2.2.2.2.1
    · simpa using hs.2.2.2.2.2.1
    · simpa using hs.2.2.2.2.2.2.1
    · simpa [comboApply] using hs.1
    · simpa [HitResult.isBaseHitM, HitResult.ScoreValue] using hs.2.2.2.1
    · simpa using hs.2.2.2.2.2.2.2.2.2.2.2.2
  · intro hm hc hsl
    rw [hc]
    have ha := adjustJudgement_sdpf_slider m inp.result hm hsl
    have hs := SendResult_spec env m inp s (sliderHit_not_special _ hsl)
    rw [hc, ha] at hs
    refine ⟨ha, ?_, ?_, ?_, ?_⟩
    · simpa using hs.2.2.2.2.2.2.2.2.1
    · simpa [HitResult.isBaseHitM] using hs.2.2.1
    · simpa [comboApply] using hs.1
    · simpa using hs.2.2.2.2.2.2.2.2.2.2.2.2

/-- Fixture for C5: Perfect active. -/
def modsPerfect : Mods := { modsOff with perfect := true }

/-- Fixture for C5: a `Hit100` judgement with an `Increase` combo result. -/
def inpHit100 : SendInput :=
  { result := HitResult.Hit100, comboResult := ComboResult.Increase,
    mcAttr := 1, comboEnd := false, allClicked := false, hpDelta := 0,
    ppValue := 0 }

/-- Witness for C5: with Perfect active, a recorded `Hit100` is downgraded to
a Miss — the Miss tally grows, the 100 tally does not, the processor combo
resets and the SuddenDeath/Perfect fail flag is raised. -/
theorem C5_witness :
    adjustJudgement modsPerfect inpHit100.result inpHit100.comboResult
        = (HitResult.Miss, ComboResult.Reset, true) ∧
    (SendResult envLive modsPerfect inpHit100
        (initialSubSet modsPerfect)).1.score.countMiss
      = (initialSubSet modsPerfect).score.countMiss + 1 ∧
    (SendResult envLive modsPerfect inpHit100
        (initialSubSet modsPerfect)).1.score.count300
      = (initialSubSet modsPerfect).score.count300 ∧
    (SendResult envLive modsPerfect inpHit100
        (initialSubSet modsPerfect)).1.score.count100
      = (initialSubSet modsPerfect).score.count100 ∧
    (SendResult envLive modsPerfect inpHit100
        (initialSubSet modsPerfect)).1.score.count50
      = (initialSubSet modsPerfect).score.count50 ∧
    (SendResult envLive modsPerfect inpHit100
        (initialSubSet modsPerfect)).1.processorCombo = 0 ∧
    (SendResult envLive modsPerfect inpHit100
        (initialSubSet modsPerfect)).1.rawScore
      = (initialSubSet modsPerfect).rawScore ∧
    (SendResult envLive modsPerfect inpHit100
        (initialSubSet modsPerfect)).1.sdpfFail = true :=
  (C5_sdpf_downgrade envLive modsPerfect inpHit100 (initialSubSet modsPerfect)).1
    rfl rfl (by decide)

/-- **C8**: After every judgement, the player's grade is recomputed by the
fixed threshold ladder over the ratio of top-tier hits to total judged
objects (`computeGrade`, mirroring `SendResult` lines 609-631); the top grade
(SS) is assigned exactly when every judged object is top-tier, and whenever a
Hidden or Flashlight modifier is active the top grades are the distinct H
variants (SSH instead of SS, SH instead of S). -/
theorem C8_grade_ladder (env : FailEnv) (m : Mods) (inp : SendInput)
    (s : SubSet)
    (he : ¬(inp.result = HitResult.Ignore ∨ inp.result = HitResult.PositionalMiss)) :
    ((SendResult env m inp s).1.score.grade
        = computeGrade m.hdfl (SendResult env m inp s).1.numObjects
            (SendResult env m inp s).1.score.count300
            (SendResult env m inp s).1.score.count50
            (SendResult env m inp s).1.score.countMiss) ∧
    (∀ (hdfl : Bool) (n c300 c50 cMiss : ℕ),
      ((computeGrade hdfl n c300 c50 cMiss = Grade.SS
          ∨ computeGrade hdfl n c300 c50 cMiss = Grade.SSH) ↔ c300 = n) ∧
      (computeGrade hdfl n c300 c50 cMiss = Grade.SSH
          ↔ (c300 = n ∧ hdfl = true)) ∧
      (hdfl = true → computeGrade hdfl n c300 c50 cMiss ≠ Grade.SS
          ∧ computeGrade hdfl n c300 c50 cMiss ≠ Grade.S) ∧
      (hdfl = false → computeGrade hdfl n c300 c50 cMiss ≠ Grade.SSH
          ∧ computeGrade hdfl n c300 c50 cMiss ≠ Grade.SH)) := by
  constructor
  · exact (SendResult_spec env m inp s he).2.2.2.2.2.2.2.2.2.2.1
  · intro hdfl n c300 c50 cMiss
    unfold computeGrade
    by_cases h1 : c300 = n
    · rw [if_pos h1]
      cases hdfl <;> simp [h1]
    · rw [if_neg h1]
      cases hdfl <;> split_ifs <;> simp_all

/-- Witness for C8: the grade published after a judgement equals the ladder
value at the updated tallies. -/
theorem C8_witness :
    (SendResult envLive modsOff inpHit100
        (initialSubSet modsOff)).1.score.grade
      = computeGrade modsOff.hdfl
          (SendResult envLive modsOff inpHit100 (initialSubSet modsOff)).1.numObjects
          (SendResult envLive modsOff inpHit100
            (initialSubSet modsOff)).1.score.count300
          (SendResult envLive modsOff inpHit100
            (initialSubSet modsOff)).1.score.count50
          (SendResult envLive modsOff inpHit100
            (initialSubSet modsOff)).1.score.countMiss :=
  (C8_grade_ladder envLive modsOff inpHit100 (initialSubSet modsOff)
    (by decide)).1

theorem shakeScan_concat (o g : ProcObj) (l2 : List ProcObj)
    (hg : g.isHit = false) (hgn : g.number ≠ o.number)
    (hgt : g.endTime + Tolerance2B < o.startTime) :
    ∀ l1 : List ProcObj,
      (∀ p ∈ l1, p.isHit = true ∨ p.number ≠ o.number) →
      shakeScan (l1 ++ g :: l2) o = true := by
  intro l1
  induction l1 with
  | nil =>
    intro _
    simp only [List.nil_append, shakeScan]
    rw [if_neg (by simp [hg]), if_neg hgn, if_pos hgt]
  | cons p l1 ih =>
    intro hno
    have hrest : ∀ x ∈ l1, x.isHit = true ∨ x.number ≠ o.number := by
      intro x hx
      exact hno x (by simp [hx])
    simp only [List.cons_append, shakeScan]
    by_cases hhit : p.isHit = true
    · rw [if_pos hhit]
      exact ih hrest
    · rcases hno p (by simp) with hh | hh
      · exact absurd hh hhit
      · rw [if_neg hhit, if_neg hh]
        by_cases ht : p.endTime + Tolerance2B < o.startTime
        · rw [if_pos ht]
        · rw [if_neg ht]
          exact ih hrest

/-- Fixture for the C7 counterexample: an open slider-like object spanning
0..1000 ms. -/
def openSlider : ProcObj :=
  { number := 0, isHit := false, startTime := 0, endTime := 1000,
    stackIndex := 0, isCircle := false }

/-- Fixture for the C7 counterexample: a circle starting at 500 ms. -/
def laterCircle : ProcObj :=
  { number := 1, isHit := false, startTime := 500, endTime := 500,
    stackIndex := 0, isCircle := true }

/-- Counterexample to C7 as stated: at time 500 a press on `laterCircle` is
accepted (`Click`) while `openSlider` — chronologically first and still
unresolved — is open, even though the two start times differ by 500 ms, far
beyond the 2B tolerance: the scan of `CanBeHit` compares the earlier object's
END time (+3 ms) against the clicked object's start time, not the two start
times, so the claim's "otherwise rejected as a shake" is false on this
input. -/
theorem C7_counterexample :
    CanBeHit false false [openSlider, laterCircle] laterCircle 500
        = ClickAction.Click ∧
    openSlider.isHit = false ∧
    openSlider.number ≠ laterCircle.number ∧
    laterCircle.startTime - openSlider.startTime > Tolerance2B := by
  refine ⟨?_, rfl, by decide, by decide⟩
  decide

/-- **C7 (amended)**: a new press may be attributed past an earlier open
object only when the clicked object's start time is at most the earlier
object's END time plus the 2B tolerance constant (3 ms); otherwise — i.e.
whenever some earlier open object `g` (not an earlier occurrence of the
clicked object itself) ends more than `Tolerance2B` before the clicked
object's start — the click is rejected as a shake with no judgement
recorded, provided the stacked-circles clause does not return `Ignored`
first. For circles the end time equals the start time, which yields the
claim's original start-time phrasing. -/
theorem C7_amended_shake_on_end_time (r2 : Bool) (l1 l2 : List ProcObj)
    (g o : ProcObj) (time : ℤ)
    (hno : ∀ p ∈ l1, p.isHit = true ∨ p.number ≠ o.number)
    (hg : g.isHit = false) (hgn : g.number ≠ o.number)
    (hgt : g.endTime + Tolerance2B < o.startTime)
    (hstack : stackIgnoredCheck (l1 ++ g :: l2) o = false) :
    CanBeHit false r2 (l1 ++ g :: l2) o time = ClickAction.Shake := by
  have hscan := shakeScan_concat o g l2 hg hgn hgt l1 hno
  unfold CanBeHit
  simp [hstack, hscan]

/-- Fixture for the C7 witness: an open slider that ends well before the
clicked circle's start. -/
def earlyOpenSlider : ProcObj :=
  { number := 0, isHit := false, startTime := 0, endTime := 400,
    stackIndex := 0, isCircle := false }

/-- Witness for the amended C7: the press on the 500 ms circle while the
0..400 ms object is still open (400 + 3 < 500) is rejected as a shake. -/
theorem C7_witness :
    CanBeHit false false ([] ++ earlyOpenSlider :: [laterCircle]) laterCircle
        500 = ClickAction.Shake :=
  C7_amended_shake_on_end_time false [] [laterCircle] earlyOpenSlider
    laterCircle 500 (by simp) rfl (by decide) (by decide) (by decide)

theorem hpIncrease_result_clamped (env : FailEnv) (m : Mods) (b : Bool)
    (amt : ℚ) (s : SubSet) :
    clampHp ((hpIncrease env m b amt s).1.hp) = (hpIncrease env m b amt s).1.hp := by
  unfold hpIncrease
  split_ifs with h1
  · unfold failInternal
    split_ifs <;> simp [clampHp_idem]
  · simp [clampHp_idem]

/-- After a fail check that left the player unfailed at zero HP, a second
`failInternal` at the same state is a no-op that does not fire the
listener. -/
theorem failInternal_stable_after (env : FailEnv) (m : Mods) (w : SubSet)
    (hw : 0 ≤ w.hp)
    (hfail : (failInternal env m w).1.failed = false)
    (hhp : (failInternal env m w).1.hp ≤ 0) :
    failInternal env m (failInternal env m w).1
      = ((failInternal env m w).1, false) := by
  by_cases g1 : env.isReplay = true ∧ env.ignoreFailsInReplays = true
  · have e : failInternal env m w = (w, false) := by
      unfold failInternal
      rw [if_pos g1]
    rw [e]
    exact e
  · by_cases g2 : w.forceFail = false ∧ m.noFailLike = true
    · have e : failInternal env m w = (w, false) := by
        unfold failInternal
        rw [if_neg g1, if_pos g2]
      rw [e]
      exact e
    · by_cases g3 : 0 < w.recoveries ∧ w.sdpfFail = false ∧ w.forceFail = false
      · exfalso
        have e : failInternal env m w
            = ({ w with hp := clampHp (w.hp + 160), recoveries := w.recoveries - 1 },
               false) := by
          unfold failInternal
          rw [if_neg g1, if_neg g2, if_pos g3]
        rw [e] at hhp
        simp only at hhp
        have h160 : (160 : ℚ) ≤ clampHp (w.hp + 160) := by
          unfold clampHp MaxHp
          have hx : (160 : ℚ) ≤ w.hp + 160 := by linarith
          exact le_trans (le_min hx (by norm_num)) (le_max_right _ _)
        linarith
      · exfalso
        have e : failInternal env m w
            = ({ w with failed := true }, env.hasFailListener && !w.failed) := by
          unfold failInternal
          rw [if_neg g1, if_neg g2, if_neg g3]
        rw [e] at hfail
        simp at hfail

/-- After an `Increase`-driven fail check that left the player unfailed at
zero HP, a second `failInternal` is a silent no-op. -/
theorem hpIncrease_fi_stable (env : FailEnv) (m : Mods) (amt : ℚ) (u : SubSet)
    (hfail : (hpIncrease env m true amt u).1.failed = false)
    (hhp : (hpIncrease env m true amt u).1.hp ≤ 0) :
    failInternal env m (hpIncrease env m true amt u).1
      = ((hpIncrease env m true amt u).1, false) := by
  by_cases h1 : (true = true) ∧ clampHp (u.hp + amt) ≤ 0
  · have e : hpIncrease env m true amt u
        = failInternal env m { u with hp := clampHp (u.hp + amt) } := by
      unfold hpIncrease
      rw [if_pos h1]
    rw [e] at hfail hhp ⊢
    exact failInternal_stable_after env m _
      (by simpa using clampHp_nonneg (u.hp + amt)) hfail hhp
  · have e : hpIncrease env m true amt u
        = ({ u with hp := clampHp (u.hp + amt) }, false) := by
      unfold hpIncrease
      rw [if_neg h1]
    rw [e] at hhp
    simp only at hhp
    exact absurd ⟨rfl, hhp⟩ h1

/-- A health tick at time `t` on a state already synchronized to `t`, with
clamped HP and a stable fail check, is a silent no-op. -/
theorem hpUpdate_of_stable (env : FailEnv) (m : Mods) (dr : ℚ) (t : ℤ)
    (S : SubSet) (hlast : S.hpLastTime = t)
    (hclamp : S.failed = false → clampHp S.hp = S.hp)
    (hfi : S.failed = false → S.hp ≤ 0 → failInternal env m S = (S, false)) :
    hpUpdate env m dr t S = (S, false) := by
  unfold hpUpdate
  by_cases hf : S.failed = true
  · rw [if_pos hf]
    rw [show ({ S with hpLastTime := t } : SubSet) = S by rw [← hlast]]
  · rw [if_neg hf]
    rw [show ({ S with hpLastTime := t } : SubSet) = S by rw [← hlast]]
    have hamt : -(dr * ((t : ℚ) - (S.hpLastTime : ℚ))) = 0 := by
      rw [hlast]
      ring
    rw [hamt]
    unfold hpIncrease
    rw [add_zero, hclamp (by simpa using hf)]
    by_cases h0 : S.hp ≤ 0
    · rw [if_pos ⟨rfl, h0⟩]
      exact hfi (by simpa using hf) h0
    · rw [if_neg (by simp [h0])]

/-- The health tick of `Update` is idempotent at a fixed time: the second
tick with the same `t` changes nothing and fires no fail listener. -/
theorem hpUpdate_idem (env : FailEnv) (m : Mods) (dr : ℚ) (t : ℤ) (s : SubSet) :
    hpUpdate env m dr t ((hpUpdate env m dr t s).1)
      = ((hpUpdate env m dr t s).1, false) := by
  by_cases hf : s.failed = true
  · have h1 : (hpUpdate env m dr t s).1 = { s with hpLastTime := t } := by
      unfold hpUpdate
      rw [if_pos hf]
    rw [h1]
    apply hpUpdate_of_stable env m dr t _ rfl
    · intro hc
      exact absurd hf (by simp [show s.failed = false from hc])
    · intro hc
      exact absurd hf (by simp [show s.failed = false from hc])
  · have h1 : (hpUpdate env m dr t s).1
        = (hpIncrease env m true (-(dr * ((t : ℚ) - (s.hpLastTime : ℚ))))
            { s with hpLastTime := t }).1 := by
      unfold hpUpdate
      rw [if_neg hf]
    rw [h1]
    apply hpUpdate_of_stable env m dr t
    · exact (hpIncrease_frame env m true _ _).2.2.2.2.2.2.2.2.2
    · intro _
      exact hpIncrease_result_clamped env m true _ _
    · intro hfail hhp
      exact hpIncrease_fi_stable env m _ _ hfail hhp

theorem takeWhile_dropWhile_nil {α : Type} (p : α → Bool) (l : List α) :
    (l.dropWhile p).takeWhile p = [] := by
  induction l with
  | nil => rfl
  | cons a l ih =>
    simp only [List.dropWhile_cons]
    by_cases h : p a = true
    · rw [if_pos h]
      exact ih
    · rw [if_neg h]
      simp [List.takeWhile_cons, h]

theorem dropWhile_dropWhile_self {α : Type} (p : α → Bool) (l : List α) :
    (l.dropWhile p).dropWhile p = l.dropWhile p := by
  induction l with
  | nil => rfl
  | cons a l ih =>
    simp only [List.dropWhile_cons]
    by_cases h : p a = true
    · rw [if_pos h]
      exact ih
    · rw [if_neg h]
      simp [List.dropWhile_cons, h]

/-- Fixture for the C9 counterexample: an object whose activation and
resolution are both already due at the tick time. -/
def staleObj : HitObj := { number := 0, fadeTime := 0, doneTime := 0 }

/-- Fixture for the C9 counterexample. -/
def staleState : RulesetState :=
  { queue := [staleObj], processed := [], players := [], ended := false }

/-- Counterexample to C9 as stated: with an object whose fade time and
trailing window are both already past at `t = 5`, the first `Update` only
moves it from queue to processed; the second `Update` with the same `t`
removes it, emits its end event, and flips the ended flag — membership, the
event stream and the ended flag all change on the repeated call. -/
theorem C9_counterexample :
    (Update envLive 5 staleState).2 = [] ∧
    (Update envLive 5 staleState).1.processed = [staleObj] ∧
    (Update envLive 5 staleState).1.ended = false ∧
    (Update envLive 5 (Update envLive 5 staleState).1).2 = [0] ∧
    (Update envLive 5 (Update envLive 5 staleState).1).1.processed = [] ∧
    (Update envLive 5 (Update envLive 5 staleState).1).1.ended = true := by
  refine ⟨rfl, rfl, rfl, rfl, rfl, rfl⟩

/-- **C9 (amended)**: calling the per-tick `Update` a second time with the
same time value `t` produces no additional end events and no change to
queue/processed membership, per-player states (hence Score snapshots), or
the ended flag, PROVIDED no object activated at `t` is already fully
resolved at `t` (the counterexample shows the proviso is necessary: an
object whose whole lifetime is past is activated by the first call and
retired — with an end event and possibly the ended transition — only by the
second). -/
theorem C9_update_idempotent (env : FailEnv) (t : ℤ) (st : RulesetState)
    (h : ∀ g ∈ st.queue, g.fadeTime ≤ t → t < g.doneTime) :
    Update env t (Update env t st).1 = ((Update env t st).1, []) := by
  have hact : ∀ g ∈ st.queue.takeWhile (fun g => decide (g.fadeTime ≤ t)),
      (!UpdatePost t g) = true := by
    intro g hg
    have hmem : g ∈ st.queue :=
      (List.IsPrefix.sublist (List.takeWhile_prefix _)).subset hg
    have hfade := List.mem_takeWhile_imp hg
    have := h g hmem (by simpa using hfade)
    simp [UpdatePost]
    omega
  unfold Update
  simp only [Prod.mk.injEq, RulesetState.mk.injEq]
  refine ⟨⟨?_, ?_, ?_, ?_⟩, ?_⟩
  · exact dropWhile_dropWhile_self _ _
  · rw [takeWhile_dropWhile_nil, List.append_nil, List.filter_append]
    congr 1
    · rw [List.filter_filter]
      apply List.filter_congr
      intro g _
      simp
    · exact List.filter_eq_self.mpr hact
  · rw [List.map_map]
    apply List.map_congr_left
    intro p _
    simp only [Function.comp_apply]
    have h2 : (hpUpdate env p.mods p.drainRate t
          ((hpUpdate env p.mods p.drainRate t p.sub).1)).1
        = (hpUpdate env p.mods p.drainRate t p.sub).1 := by
      rw [hpUpdate_idem]
    rw [h2]
  · rw [takeWhile_dropWhile_nil, List.append_nil, List.filter_append]
    rw [dropWhile_dropWhile_self]
    rw [show (st.processed.filter (fun g => !UpdatePost t g)).filter
          (fun g => !UpdatePost t g)
        = st.processed.filter (fun g => !UpdatePost t g) by
      rw [List.filter_filter]
      apply List.filter_congr
      intro g _
      simp]
    rw [List.filter_eq_self.mpr hact]
    rw [Bool.or_assoc, Bool.or_self]
  · rw [List.filter_append]
    have h1 : (st.processed.filter (fun g => !UpdatePost t g)).filter
        (fun g => UpdatePost t g) = [] := by
      rw [List.filter_filter]
      apply List.filter_eq_nil_iff.mpr
      intro g _
      simp
    have h2 : (st.queue.takeWhile (fun g => decide (g.fadeTime ≤ t))).filter
        (fun g => UpdatePost t g) = [] := by
      apply List.filter_eq_nil_iff.mpr
      intro g hg
      have := hact g hg
      simp at this
      simp [this]
    rw [h1, h2]
    simp

/-- Fixture for the C9 witness: an object activated at the tick but not yet
resolved. -/
def liveObj : HitObj := { number := 0, fadeTime := 0, doneTime := 10 }

/-- Fixture for the C9 witness. -/
def liveState : RulesetState :=
  { queue := [liveObj], processed := [], players := [], ended := false }

/-- Witness for the amended C9: with the activated object still unresolved at
`t = 5`, the repeated `Update` is a no-op emitting no events. -/
theorem C9_witness :
    Update envLive 5 (Update envLive 5 liveState).1
      = ((Update envLive 5 liveState).1, []) :=
  C9_update_idempotent envLive 5 liveState (by decide)

/-- Fold a list of `SendResult` inputs into the final per-player state. -/
def runSend (env : FailEnv) (m : Mods) :
    List (Bool × SendInput) → SubSet → SubSet
  | [], s => s
  | e :: es, s => runSend env m es (SendResult env m e.2 s).1

/-- The number of `Increase` combo events among a list of part events. -/
def incParts (ps : List PartEvent) : ℕ :=
  (ps.filter (fun p => decide (p.comboResult = ComboResult.Increase))).length

theorem incCount_eq (o : ObjPlay) :
    incCount o
      = incParts o.parts
          + (if o.final.comboResult = ComboResult.Increase then 1 else 0) := rfl

theorem runTrace_append (env : FailEnv) (m : Mods) :
    ∀ (l1 l2 : List (Bool × SendInput)) (s : SubSet),
      runTrace env m (l1 ++ l2) s
        = runTrace env m l1 s ++ runTrace env m l2 (runSend env m l1 s) := by
  intro l1
  induction l1 with
  | nil => intro l2 s; rfl
  | cons e es ih =>
    intro l2 s
    simp only [List.cons_append, runTrace, runSend, List.cons.injEq, true_and]
    exact ih l2 _

theorem runTrace_parts_tag (env : FailEnv) (m : Mods) (mc : ℕ) :
    ∀ (ps : List PartEvent) (s : SubSet) (x : Bool × SubSet),
      x ∈ runTrace env m (ps.map (fun p => (false, partInput mc p))) s →
      x.1 = false := by
  intro ps
  induction ps with
  | nil => intro s x hx; simp [runTrace] at hx
  | cons p ps ih =>
    intro s x hx
    simp only [List.map_cons, runTrace, List.mem_cons] at hx
    rcases hx with hx | hx
    · rw [hx]
    · exact ih _ x hx

theorem adjust_combo_cases (m : Mods) (r : HitResult) (c : ComboResult) :
    (adjustJudgement m r c).2.1 = c
      ∨ (adjustJudgement m r c).2.1 = ComboResult.Reset := by
  unfold adjustJudgement
  split_ifs <;> simp

theorem adjust_nonbase (m : Mods) (r : HitResult) (c : ComboResult)
    (hb : r.isBaseHitM = false) :
    ((adjustJudgement m r c).1).isBaseHitM = false := by
  unfold adjustJudgement sdpfDowngrade
  split_ifs <;> simp_all [HitResult.isBaseHitM]

theorem adjust_base_cases (m : Mods) (r : HitResult) (c : ComboResult)
    (hb : r.isBaseHitM = true) :
    (adjustJudgement m r c = (HitResult.Miss, ComboResult.Reset, true)
        ∧ sdpfHits m r c = true)
    ∨ adjustJudgement m r c = (r, c, false) := by
  unfold adjustJudgement
  split_ifs with h1
  · left
    refine ⟨?_, h1⟩
    unfold sdpfDowngrade
    rw [if_pos hb]
  · right
    rfl

theorem sdpfHits_hit300 (m : Mods) (c : ComboResult)
    (h : sdpfHits m HitResult.Hit300 c = true) : c = ComboResult.Reset := by
  unfold sdpfHits at h
  simp [HitResult.isBaseHitM] at h
  exact h.2

theorem nonbase_ne_miss (r : HitResult) (hb : r.isBaseHitM = false) :
    r ≠ HitResult.Miss := by
  cases r <;> simp_all [HitResult.isBaseHitM]

theorem comboApply_le_ite (a c : ComboResult) (pc : ℕ)
    (h : a = c ∨ a = ComboResult.Reset) :
    comboApply a pc ≤ pc + (if c = ComboResult.Increase then 1 else 0) := by
  rcases h with h | h
  · rw [h]
    cases c <;> simp [comboApply]
  · rw [h]
    cases c <;> simp [comboApply]

theorem part_step (env : FailEnv) (m : Mods) (mc : ℕ) (p : PartEvent)
    (s : SubSet) (hb : p.result.isBaseHitM = false) :
    ((SendResult env m (partInput mc p) s).1.numObjects = s.numObjects) ∧
    ((SendResult env m (partInput mc p) s).1.score.countMiss
        = s.score.countMiss) ∧
    ((SendResult env m (partInput mc p) s).1.processorCombo
        ≤ s.processorCombo
            + (if p.comboResult = ComboResult.Increase then 1 else 0)) ∧
    ((SendResult env m (partInput mc p) s).1.score.combo
        ≤ max s.score.combo
            (s.processorCombo
              + (if p.comboResult = ComboResult.Increase then 1 else 0))) := by
  by_cases he : (partInput mc p).result = HitResult.Ignore
      ∨ (partInput mc p).result = HitResult.PositionalMiss
  · have : SendResult env m (partInput mc p) s = (s, false) := by
      unfold SendResult
      rw [if_pos he]
    rw [this]
    refine ⟨rfl, rfl, ?_, le_max_left _ _⟩
    show s.processorCombo ≤ _
    omega
  · have hs := SendResult_spec env m (partInput mc p) s he
    have hnb : ((adjustJudgement m (partInput mc p).result
          (partInput mc p).comboResult).1).isBaseHitM = false :=
      adjust_nonbase m p.result p.comboResult hb
    have hpcle : comboApply (adjustJudgement m (partInput mc p).result
            (partInput mc p).comboResult).2.1 s.processorCombo
        ≤ s.processorCombo
            + (if p.comboResult = ComboResult.Increase then 1 else 0) :=
      comboApply_le_ite _ _ _ (adjust_combo_cases m p.result p.comboResult)
    exact ⟨hs.2.2.1.trans (by simp [hnb]),
      hs.2.2.2.2.2.2.2.1.trans (by simp [nonbase_ne_miss _ hnb]),
      (le_of_eq hs.1).trans hpcle,
      (le_of_eq hs.2.1).trans
        (max_le (le_trans hpcle (le_max_right _ _)) (le_max_left _ _))⟩

theorem parts_bounds (env : FailEnv) (m : Mods) (mc : ℕ) :
    ∀ (ps : List PartEvent) (s : SubSet),
      (∀ p ∈ ps, p.result.isBaseHitM = false) →
      ((runSend env m (ps.map (fun p => (false, partInput mc p))) s).numObjects
          = s.numObjects) ∧
      ((runSend env m (ps.map (fun p => (false, partInput mc p))) s).score.countMiss
          = s.score.countMiss) ∧
      ((runSend env m (ps.map (fun p => (false, partInput mc p))) s).processorCombo
          ≤ s.processorCombo + incParts ps) ∧
      ((runSend env m (ps.map (fun p => (false, partInput mc p))) s).score.combo
          ≤ max s.score.combo (s.processorCombo + incParts ps)) := by
  intro ps
  induction ps with
  | nil =>
    intro s _
    simp [runSend, incParts]
  | cons p ps ih =>
    intro s hnb
    have hstep := part_step env m mc p s (hnb p (by simp))
    have hrest := ih (SendResult env m (partInput mc p) s).1
      (fun q hq => hnb q (by simp [hq]))
    have hinc : incParts (p :: ps)
        = (if p.comboResult = ComboResult.Increase then 1 else 0)
            + incParts ps := by
      unfold incParts
      rw [List.filter_cons]
      by_cases h : p.comboResult = ComboResult.Increase
      · rw [if_pos (by simpa using h), if_pos h]
        simp only [List.length_cons]
        omega
      · rw [if_neg (by simpa using h), if_neg h]
        simp
    simp only [List.map_cons, runSend]
    refine ⟨?_, ?_, ?_, ?_⟩
    · rw [hrest.1, hstep.1]
    · rw [hrest.2.1, hstep.2.1]
    · refine le_trans hrest.2.2.1 ?_
      rw [hinc]
      have := hstep.2.2.1
      omega
    · have hA : (SendResult env m (partInput mc p) s).1.score.combo
          ≤ max s.score.combo (s.processorCombo + incParts (p :: ps)) := by
        refine le_trans hstep.2.2.2 ?_
        rw [hinc]
        apply max_le (le_max_left _ _)
        refine le_trans ?_ (le_max_right _ _)
        omega
      have hB : (SendResult env m (partInput mc p) s).1.processorCombo
            + incParts ps
          ≤ max s.score.combo (s.processorCombo + incParts (p :: ps)) := by
        have h1 := hstep.2.2.1
        rw [hinc]
        refine le_trans ?_ (le_max_right _ _)
        omega
      exact le_trans hrest.2.2.2 (max_le hA hB)

theorem incParts_zero (ps : List PartEvent)
    (h : ∀ p ∈ ps, p.comboResult ≠ ComboResult.Increase) : incParts ps = 0 := by
  unfold incParts
  rw [List.filter_eq_nil_iff.mpr]
  · rfl
  · intro p hp
    simpa using h p hp

theorem runSend_append (env : FailEnv) (m : Mods) :
    ∀ (l1 l2 : List (Bool × SendInput)) (s : SubSet),
      runSend env m (l1 ++ l2) s = runSend env m l2 (runSend env m l1 s) := by
  intro l1
  induction l1 with
  | nil => intro l2 s; rfl
  | cons e es ih =>
    intro l2 s
    simp only [List.cons_append, runSend]
    exact ih l2 _

/-- The base judgement of one object, applied to the state reached after its
part results: the combo bounds move from `total` to `total + o.c`, strictly
once any Miss has been recorded, and the published perfect-combo flag
compares the cumulative attribute `total + o.c` against the published max
combo. -/
theorem final_step (env : FailEnv) (m : Mods) (o : ObjPlay) (total : ℕ)
    (s sp : SubSet) (hwf : WFObj o)
    (hpm : sp.score.countMiss = s.score.countMiss)
    (hppc : sp.processorCombo ≤ s.processorCombo + incParts o.parts)
    (hpcb : sp.score.combo
        ≤ max s.score.combo (s.processorCombo + incParts o.parts))
    (h0 : s.score.countMiss = 0 →
        s.processorCombo ≤ total ∧ s.score.combo ≤ total)
    (h1 : 0 < s.score.countMiss →
        s.processorCombo < total ∧ s.score.combo < total) :
    ((SendResult env m (partInput (total + o.c) o.final) sp).1.score.countMiss = 0 →
      (SendResult env m (partInput (total + o.c) o.final) sp).1.processorCombo
          ≤ total + o.c ∧
      (SendResult env m (partInput (total + o.c) o.final) sp).1.score.combo
          ≤ total + o.c) ∧
    (0 < (SendResult env m (partInput (total + o.c) o.final) sp).1.score.countMiss →
      (SendResult env m (partInput (total + o.c) o.final) sp).1.processorCombo
          < total + o.c ∧
      (SendResult env m (partInput (total + o.c) o.final) sp).1.score.combo
          < total + o.c) ∧
    ((SendResult env m (partInput (total + o.c) o.final) sp).1.score.perfectCombo
        = decide (total + o.c
            = (SendResult env m (partInput (total + o.c) o.final) sp).1.score.combo)) := by
  obtain ⟨hc1, hnbp, hfb, hincle, hincs, hmzero, h300⟩ := hwf
  rw [incCount_eq] at hincle
  have hs := SendResult_spec env m (partInput (total + o.c) o.final) sp
    (baseHit_not_special _ hfb)
  have Hpc : (SendResult env m (partInput (total + o.c) o.final) sp).1.processorCombo
      = comboApply (adjustJudgement m o.final.result o.final.comboResult).2.1
          sp.processorCombo := hs.1
  have Hcb : (SendResult env m (partInput (total + o.c) o.final) sp).1.score.combo
      = max (comboApply (adjustJudgement m o.final.result o.final.comboResult).2.1
          sp.processorCombo) sp.score.combo := hs.2.1
  have Hms : (SendResult env m (partInput (total + o.c) o.final) sp).1.score.countMiss
      = sp.score.countMiss
          + (if (adjustJudgement m o.final.result o.final.comboResult).1
                = HitResult.Miss then 1 else 0) := hs.2.2.2.2.2.2.2.1
  have HPC : (SendResult env m (partInput (total + o.c) o.final) sp).1.score.perfectCombo
      = decide (total + o.c
          = (SendResult env m (partInput (total + o.c) o.final) sp).1.score.combo) :=
    hs.2.2.2.2.2.2.2.2.2.2.2.1
  refine ⟨?_, ?_, HPC⟩ <;>
    rcases adjust_base_cases m o.final.result o.final.comboResult hfb with
      ⟨hadj, hsdpf⟩ | hadj
  -- goal 1, sdpf-adjusted: the recorded result is a Miss, countMiss cannot be 0
  · intro hq
    rw [hadj] at Hms
    simp at Hms
    rw [Hms] at hq
    exact absurd hq (by omega)
  -- goal 1, unadjusted
  · intro hq
    rw [hadj] at Hpc Hcb Hms
    dsimp only at Hpc Hcb Hms
    have hca : comboApply o.final.comboResult sp.processorCombo
        ≤ sp.processorCombo
            + (if o.final.comboResult = ComboResult.Increase then 1 else 0) :=
      comboApply_le_ite _ _ _ (Or.inl rfl)
    have hm : s.score.countMiss = 0 := by
      rw [Hms, hpm] at hq
      omega
    have hb := h0 hm
    constructor
    · rw [Hpc]
      omega
    · rw [Hcb]
      omega
  -- goal 2, sdpf-adjusted
  · intro _
    rw [hadj] at Hpc Hcb
    dsimp only at Hpc Hcb
    simp only [comboApply] at Hpc Hcb
    have hIP : incParts o.parts < o.c := by
      by_cases hr : o.final.result = HitResult.Miss
      · have hz := incParts_zero _ (hmzero hr).1
        omega
      · have hne : o.final.result ≠ HitResult.Hit300 := by
          intro h3eq
          exact h300 h3eq (sdpfHits_hit300 m o.final.comboResult (h3eq ▸ hsdpf))
        have hne2 : incParts o.parts ≠ o.c := fun he => hne (hincs he)
        omega
    constructor
    · rw [Hpc]
      omega
    · rw [Hcb]
      by_cases hm : s.score.countMiss = 0
      · have hb := h0 hm
        omega
      · have hb := h1 (Nat.pos_of_ne_zero hm)
        omega
  -- goal 2, unadjusted
  · intro hq
    rw [hadj] at Hpc Hcb Hms
    dsimp only at Hpc Hcb Hms
    have hca : comboApply o.final.comboResult sp.processorCombo
        ≤ sp.processorCombo
            + (if o.final.comboResult = ComboResult.Increase then 1 else 0) :=
      comboApply_le_ite _ _ _ (Or.inl rfl)
    by_cases hr : o.final.result = HitResult.Miss
    · have hmz := hmzero hr
      have hIP0 : incParts o.parts = 0 := incParts_zero _ hmz.1
      rw [hmz.2] at Hpc Hcb
      simp only [comboApply] at Hpc Hcb
      constructor
      · rw [Hpc]
        omega
      · rw [Hcb]
        by_cases hm : s.score.countMiss = 0
        · have hb := h0 hm
          omega
        · have hb := h1 (Nat.pos_of_ne_zero hm)
          omega
    · rw [if_neg hr] at Hms
      have hm : 0 < s.score.countMiss := by
        rw [Hms, hpm] at hq
        omega
      have hb := h1 hm
      constructor
      · rw [Hpc]
        omega
      · rw [Hcb]
        omega

/-- The session invariant behind the amended C6: along any well-formed
session, every snapshot published at a base judgement after a Miss has been
recorded carries `PerfectCombo = false`. -/
theorem session_inv (env : FailEnv) (m : Mods) :
    ∀ (objs : List ObjPlay) (k total : ℕ) (s : SubSet),
      (∀ o ∈ objs, WFObj o) →
      (s.score.countMiss = 0 →
        s.processorCombo ≤ total ∧ s.score.combo ≤ total) →
      (0 < s.score.countMiss →
        s.processorCombo < total ∧ s.score.combo < total) →
      ∀ x ∈ runTrace env m (sessionEvents k total objs) s,
        x.1 = true → 0 < x.2.score.countMiss →
        x.2.score.perfectCombo = false := by
  intro objs
  induction objs with
  | nil =>
    intro k total s _ _ _ x hx
    simp [sessionEvents, runTrace] at hx
  | cons o os ih =>
    intro k total s hwf h0 h1 x hx htag hmiss
    have hwfo := hwf o (by simp)
    have hsplit : sessionEvents k total (o :: os)
        = (o.parts.map
            (fun p => (false, partInput (if k = 0 then o.c else total) p))
            ++ [(true, partInput (total + o.c) o.final)])
          ++ sessionEvents (k + 1) (total + o.c) os := rfl
    rw [hsplit, runTrace_append, runTrace_append, runSend_append] at hx
    have hpb := parts_bounds env m (if k = 0 then o.c else total) o.parts s
      hwfo.2.1
    have fs := final_step env m o total s
      (runSend env m
        (o.parts.map (fun p => (false, partInput (if k = 0 then o.c else total) p)))
        s)
      hwfo hpb.2.1 hpb.2.2.1 hpb.2.2.2 h0 h1
    rcases List.mem_append.mp hx with hx1 | hx2
    · rcases List.mem_append.mp hx1 with hxa | hxb
      · have := runTrace_parts_tag env m _ o.parts s x hxa
        rw [htag] at this
        exact absurd this (by simp)
      · have hxeq : x = (true,
            (SendResult env m (partInput (total + o.c) o.final)
              (runSend env m
                (o.parts.map
                  (fun p => (false, partInput (if k = 0 then o.c else total) p)))
                s)).1) := by
          simpa [runTrace] using hxb
        rcases hxeq with rfl
        have hlt := (fs.2.1 (by simpa using hmiss)).2
        rw [show ((true,
            (SendResult env m (partInput (total + o.c) o.final)
              (runSend env m
                (o.parts.map
                  (fun p => (false, partInput (if k = 0 then o.c else total) p)))
                s)).1) : Bool × SubSet).2
          = (SendResult env m (partInput (total + o.c) o.final)
              (runSend env m
                (o.parts.map
                  (fun p => (false, partInput (if k = 0 then o.c else total) p)))
                s)).1 from rfl]
        rw [fs.2.2]
        exact decide_eq_false (by omega)
    · exact ih (k + 1) (total + o.c) _ (fun q hq => hwf q (by simp [hq]))
        fs.1 fs.2.1 x hx2 htag hmiss

/-- Fixture for C6: a circle worth one combo, missed outright. -/
def missedCircle : ObjPlay :=
  { c := 1, parts := [], final := ⟨HitResult.Miss, ComboResult.Reset⟩ }

/-- Fixture for C6: a slider worth two combo, played fully — its head sends
an intermediate `SliderStart`/`Increase` result before the base `Hit300`. -/
def playedSlider : ObjPlay :=
  { c := 2, parts := [⟨HitResult.SliderStart, ComboResult.Increase⟩],
    final := ⟨HitResult.Hit300, ComboResult.Hold⟩ }

/-- Snapshot after the missed circle's base judgement. -/
def snapC6a : SubSet :=
  (SendResult envLive modsOff
    (partInput 1 ⟨HitResult.Miss, ComboResult.Reset⟩)
    (initialSubSet modsOff)).1

/-- Snapshot after the slider-head part result. -/
def snapC6b : SubSet :=
  (SendResult envLive modsOff
    (partInput 1 ⟨HitResult.SliderStart, ComboResult.Increase⟩) snapC6a).1

/-- Snapshot after the slider's base judgement. -/
def snapC6c : SubSet :=
  (SendResult envLive modsOff
    (partInput 3 ⟨HitResult.Hit300, ComboResult.Hold⟩) snapC6b).1

theorem wf_missedCircle : WFObj missedCircle := by
  unfold WFObj
  decide

theorem wf_playedSlider : WFObj playedSlider := by
  unfold WFObj
  decide

theorem traceC6_eq :
    runTrace envLive modsOff (sessionEvents 0 0 [missedCircle, playedSlider])
        (initialSubSet modsOff)
      = [(true, snapC6a), (false, snapC6b), (true, snapC6c)] := rfl

theorem snapC6a_facts :
    snapC6a.score.countMiss = 1 ∧ snapC6a.processorCombo = 0 ∧
    snapC6a.score.combo = 0 := by
  have hs := SendResult_spec envLive modsOff
    (partInput 1 ⟨HitResult.Miss, ComboResult.Reset⟩) (initialSubSet modsOff)
    (by decide)
  have he : adjustJudgement modsOff HitResult.Miss ComboResult.Reset
      = (HitResult.Miss, ComboResult.Reset, false) := by decide
  refine ⟨?_, ?_, ?_⟩
  · have h1 : snapC6a.score.countMiss
        = (initialSubSet modsOff).score.countMiss
            + (if (adjustJudgement modsOff HitResult.Miss ComboResult.Reset).1
                  = HitResult.Miss then 1 else 0) := hs.2.2.2.2.2.2.2.1
    rw [he] at h1
    simpa [initialSubSet] using h1
  · have h2 : snapC6a.processorCombo
        = comboApply (adjustJudgement modsOff HitResult.Miss ComboResult.Reset).2.1
            (initialSubSet modsOff).processorCombo := hs.1
    rw [he] at h2
    simpa [initialSubSet, comboApply] using h2
  · have h3 : snapC6a.score.combo
        = max (comboApply
              (adjustJudgement modsOff HitResult.Miss ComboResult.Reset).2.1
              (initialSubSet modsOff).processorCombo)
            (initialSubSet modsOff).score.combo := hs.2.1
    rw [he] at h3
    simpa [initialSubSet, comboApply] using h3

theorem snapC6b_facts :
    snapC6b.score.countMiss = 1 ∧ snapC6b.processorCombo = 1 ∧
    snapC6b.score.combo = 1 ∧ snapC6b.score.perfectCombo = true := by
  have hs := SendResult_spec envLive modsOff
    (partInput 1 ⟨HitResult.SliderStart, ComboResult.Increase⟩) snapC6a
    (by decide)
  have he : adjustJudgement modsOff HitResult.SliderStart ComboResult.Increase
      = (HitResult.SliderStart, ComboResult.Increase, false) := by decide
  have h2 : snapC6b.processorCombo
      = comboApply (adjustJudgement modsOff HitResult.SliderStart
            ComboResult.Increase).2.1 snapC6a.processorCombo := hs.1
  rw [he, snapC6a_facts.2.1] at h2
  simp only [comboApply] at h2
  have h3 : snapC6b.score.combo
      = max (comboApply (adjustJudgement modsOff HitResult.SliderStart
            ComboResult.Increase).2.1 snapC6a.processorCombo)
          snapC6a.score.combo := hs.2.1
  rw [he, snapC6a_facts.2.1, snapC6a_facts.2.2] at h3
  simp only [comboApply] at h3
  refine ⟨?_, h2, by simpa using h3, ?_⟩
  · have h1 : snapC6b.score.countMiss
        = snapC6a.score.countMiss
            + (if (adjustJudgement modsOff HitResult.SliderStart
                  ComboResult.Increase).1 = HitResult.Miss then 1 else 0) :=
      hs.2.2.2.2.2.2.2.1
    rw [he, snapC6a_facts.1] at h1
    simpa using h1
  · have h4 : snapC6b.score.perfectCombo
        = decide (1 = snapC6b.score.combo) := hs.2.2.2.2.2.2.2.2.2.2.2.1
    rw [h4, show snapC6b.score.combo = 1 from by simpa using h3]
    simp

theorem snapC6c_facts :
    snapC6c.score.countMiss = 1 ∧ snapC6c.score.perfectCombo = false := by
  have hs := SendResult_spec envLive modsOff
    (partInput 3 ⟨HitResult.Hit300, ComboResult.Hold⟩) snapC6b (by decide)
  have he : adjustJudgement modsOff HitResult.Hit300 ComboResult.Hold
      = (HitResult.Hit300, ComboResult.Hold, false) := by decide
  have h3 : snapC6c.score.combo
      = max (comboApply (adjustJudgement modsOff HitResult.Hit300
            ComboResult.Hold).2.1 snapC6b.processorCombo)
          snapC6b.score.combo := hs.2.1
  rw [he, snapC6b_facts.2.1, snapC6b_facts.2.2.1] at h3
  simp only [comboApply] at h3
  constructor
  · have h1 : snapC6c.score.countMiss
        = snapC6b.score.countMiss
            + (if (adjustJudgement modsOff HitResult.Hit300
                  ComboResult.Hold).1 = HitResult.Miss then 1 else 0) :=
      hs.2.2.2.2.2.2.2.1
    rw [he, snapC6b_facts.1] at h1
    simpa using h1
  · have h4 : snapC6c.score.perfectCombo
        = decide (3 = snapC6c.score.combo) := hs.2.2.2.2.2.2.2.2.2.2.2.1
    rw [h4, show snapC6c.score.combo = 1 from by simpa using h3]
    simp

/-- Counterexample to C6 as stated: in a well-formed session where a circle
is missed and a slider is then played fully, the snapshot published at the
slider-head part result has a Miss recorded yet `PerfectCombo = true`: with
one base object judged, `SendResult` looks the cumulative attribute up at
index `max(1, numObjects) - 1 = 0` (max combo 1, the circle alone) while the
published max combo has already grown to 1 through the slider head, so the
equality test of line 653 succeeds even though the combo chain was broken. -/
theorem C6_counterexample :
    runTrace envLive modsOff (sessionEvents 0 0 [missedCircle, playedSlider])
        (initialSubSet modsOff)
      = [(true, snapC6a), (false, snapC6b), (true, snapC6c)] ∧
    WFObj missedCircle ∧ WFObj playedSlider ∧
    0 < snapC6b.score.countMiss ∧ snapC6b.score.perfectCombo = true := by
  refine ⟨traceC6_eq, wf_missedCircle, wf_playedSlider, ?_, snapC6b_facts.2.2.2⟩
  rw [snapC6b_facts.1]
  norm_num

/-- **C6 (amended)**: for every player, once any Miss judgement has been
recorded, the published perfect-combo flag is false at every subsequent BASE
judgement (`SendResult` recording a base hit result) for the rest of the
session; at intermediate part results between base judgements the flag may
transiently read true (see the counterexample). The session is any
well-formed sequence of object plays (`WFObj`), and the trace tags base
judgements with `true`. -/
theorem C6_perfect_combo_after_miss (env : FailEnv) (m : Mods)
    (objs : List ObjPlay) (hwf : ∀ o ∈ objs, WFObj o) :
    ∀ x ∈ runTrace env m (sessionEvents 0 0 objs) (initialSubSet m),
      x.1 = true → 0 < x.2.score.countMiss →
      x.2.score.perfectCombo = false :=
  session_inv env m objs 0 0 (initialSubSet m) hwf
    (fun _ => ⟨le_refl 0, le_refl 0⟩)
    (fun h => absurd h (by simp [initialSubSet]))

/-- Witness for the amended C6: in the concrete session above, the base
judgement following the miss (the slider's final result) publishes
`PerfectCombo = false`. -/
theorem C6_witness : snapC6c.score.perfectCombo = false :=
  C6_perfect_combo_after_miss envLive modsOff [missedCircle, playedSlider]
    (by
      intro o ho
      rcases List.mem_cons.mp ho with rfl | ho
      · exact wf_missedCircle
      rcases List.mem_cons.mp ho with rfl | ho
      · exact wf_playedSlider
      simp at ho)
    (true, snapC6c)
    (by rw [traceC6_eq]; simp)
    rfl
    (by show 0 < snapC6c.score.countMiss
        rw [snapC6c_facts.1]
        norm_num)

end Claims

end Danser
